import Mathlib

/-!
Verification development for the v8-heapsnapshot decoder (src/index.ts).

The decoder is embedded shallowly:

* JSON documents are modelled by `JVal`; JavaScript numbers are modelled as
  integers (`Int`), which covers every value a heap snapshot document
  contains.  A JavaScript expression that evaluates to `undefined` is
  modelled by `JVal.undefined` (or by `Option.none` in the typed decode layer).
* Exceptions are modelled with `Except String`; the emitted `console.warn` /
  `console.error` messages are collected in a `List String`.
* The mutable `out_edges` / `in_edges` arrays and the lazily cached getters
  of `SnapshotImpl` are modelled by explicit state passing.
-/

/-- A JSON-ish runtime value (JavaScript numbers restricted to integers). -/
inductive JVal where
  | num (n : Int)
  | str (s : String)
  | bool (b : Bool)
  | arr (xs : List JVal)
  | obj (kvs : List (String × JVal))
  | null
  | undefined

/-- `typeof` of a `JVal` (arrays and `null` have typeof "object"). -/
def typeofStr : JVal → String
  | .num _ => "number"
  | .str _ => "string"
  | .bool _ => "boolean"
  | .arr _ => "object"
  | .obj _ => "object"
  | .null => "object"
  | .undefined => "undefined"

/-- Property lookup in an object literal; a missing key reads as `undefined`. -/
def jLookup : List (String × JVal) → String → JVal
  | [], _ => .undefined
  | (k, v) :: rest, key => if k = key then v else jLookup rest key

/-- `arr[idx]` for a JavaScript array with a natural-number index. -/
def jAt (ds : List JVal) (idx : Nat) : JVal :=
  match ds.get? idx with
  | some v => v
  | none => .undefined

/-- JavaScript property access `v[k]`.  Accessing a property of `null` or
`undefined` throws a `TypeError`; arrays and strings expose `length`;
numbers and booleans have no own properties. -/
def propAcc : JVal → String → Except String JVal
  | .null, k => .error s!"TypeError: Cannot read properties of null (reading '{k}')"
  | .undefined, k => .error s!"TypeError: Cannot read properties of undefined (reading '{k}')"
  | .obj kvs, k => .ok (jLookup kvs k)
  | .arr xs, k => .ok (if k = "length" then .num xs.length else .undefined)
  | .str s, k => .ok (if k = "length" then .num s.length else .undefined)
  | .num _, _ => .ok .undefined
  | .bool _, _ => .ok .undefined

/-- `Array.isArray`. -/
def isArrayB : JVal → Bool
  | .arr _ => true
  | _ => false

/-- `Number.isInteger` (numbers are modelled as integers, so any number
passes; any non-number fails). -/
def isIntegerB : JVal → Bool
  | .num _ => true
  | _ => false

/-- String-to-number coercion used by `==` and `*` (only integer-shaped
strings are modelled; other strings coerce to `none`, standing for NaN). -/
def jsStrToNum (s : String) : Option Int := s.toInt?

/-- Rendering of a scalar inside `Array.prototype.toString` (one level;
nested arrays and objects are not fully rendered, which no reachable
diagnostic needs). -/
def jsToStringAtom : JVal → String
  | .num n => toString n
  | .str s => s
  | .bool b => cond b "true" "false"
  | .null => ""
  | .undefined => ""
  | .arr _ => ""
  | .obj _ => "[object Object]"

/-- JavaScript `String(v)` as used by template-literal interpolation. -/
def jsToString : JVal → String
  | .num n => toString n
  | .str s => s
  | .bool b => cond b "true" "false"
  | .null => "null"
  | .undefined => "undefined"
  | .arr xs => String.intercalate "," (xs.map jsToStringAtom)
  | .obj _ => "[object Object]"

/-- One-level rendering of an element for `JSON.stringify` (string escaping
and deep nesting are not modelled; no reachable diagnostic needs them). -/
def jsonStringifyAtom : JVal → String
  | .num n => toString n
  | .str s => "\"" ++ s ++ "\""
  | .bool b => cond b "true" "false"
  | .null => "null"
  | .undefined => "null"
  | .arr _ => "[]"
  | .obj _ => "\x7b\x7d"

/-- `JSON.stringify(v)` as used by the drift-warning messages
(`JSON.stringify(undefined)` is `undefined`, which interpolates as the
text "undefined"). -/
def jsonStringify : JVal → String
  | .num n => toString n
  | .str s => "\"" ++ s ++ "\""
  | .bool b => cond b "true" "false"
  | .null => "null"
  | .undefined => "undefined"
  | .arr xs => "[" ++ String.intercalate "," (xs.map jsonStringifyAtom) ++ "]"
  | .obj kvs => "\x7b" ++ String.intercalate "," (kvs.map (fun p => "\"" ++ p.1 ++ "\":" ++ jsonStringifyAtom p.2)) ++ "\x7d"

/-- JavaScript loose equality `==`, for the values compared by
`Sanity.check` (`length` reads).  Object/array operands never compare
equal here (they would compare by reference, and all values involved are
freshly produced). -/
def jsLooseEq : JVal → JVal → Bool
  | .num a, .num b => a = b
  | .str a, .str b => a = b
  | .bool a, .bool b => a = b
  | .undefined, .undefined => true
  | .undefined, .null => true
  | .null, .undefined => true
  | .null, .null => true
  | .num a, .str s => jsStrToNum s = some a
  | .str s, .num a => jsStrToNum s = some a
  | .num a, .bool b => a = (if b then (1 : Int) else 0)
  | .bool b, .num a => a = (if b then (1 : Int) else 0)
  | _, _ => false

/-- JavaScript `v >= n` for an integer literal `n`; non-numeric operands
coerce to NaN and compare false (integer-shaped strings coerce). -/
def jsGE (v : JVal) (n : Int) : Bool :=
  match v with
  | .num m => n ≤ m
  | .str s =>
    match jsStrToNum s with
    | some m => n ≤ m
    | none => false
  | _ => false

/-- Numeric coercion for `*` (arrays and objects are not modelled and
coerce to `none`, standing for NaN, as `undefined` does). -/
def toNumJ : JVal → Option Int
  | .num n => some n
  | .bool b => some (if b then 1 else 0)
  | .null => some 0
  | .str s => jsStrToNum s
  | .undefined => none
  | .arr _ => none
  | .obj _ => none

/-- JavaScript `a * b`; `none` stands for NaN. -/
def jsMul (a b : JVal) : Option Int :=
  match toNumJ a, toNumJ b with
  | some x, some y => some (x * y)
  | _, _ => none

/-- Rendering of a `jsMul` result inside a template literal. -/
def renderNum : Option Int → String
  | some n => toString n
  | none => "NaN"

/-- Strict equality `v === n` between a value and a (possibly NaN)
number; NaN is strictly unequal to everything. -/
def jsStrictEqNum (v : JVal) (n : Option Int) : Bool :=
  match v, n with
  | .num m, some k => m = k
  | _, _ => false

/-! ## The meta-descriptor prototype and `checkMetaData`

The prototype value `metaDataProto` of the source is embedded as the
inductive `GProto`; `Optional` wrappers become the `opt` constructor.
`checkMetaData` recurses through the prototype; because the recursion is
driven purely by the prototype (never by the data), it is implemented on
a `Nat` fuel so that it is structurally recursive and computable by the
kernel.  `checkFuel` exceeds every recursion depth reachable from
`metaDataProto`. -/

/-- The expected-shape template type (`UndefinedAsOptional<MetaData>`). -/
inductive GProto where
  | str (s : String)
  | opt (p : GProto)
  | arr (ps : List GProto)
  | obj (kps : List (String × GProto))

/-- Shorthand: a template array of scalar strings. -/
def strsP (l : List String) : GProto := .arr (l.map .str)

def nodeTypeTypesProto : GProto :=
  strsP ["hidden", "array", "string", "object", "code", "closure", "regexp", "number", "native", "synthetic", "concatenated string", "sliced string", "symbol", "bigint"]

/-- `metaDataProto` from the source, lines 73-82. -/
def metaDataProto : GProto := .obj [
  ("node_fields", .arr [.str "type", .str "name", .str "id", .str "self_size", .str "edge_count", .str "trace_node_id", .opt (.str "detachedness")]),
  ("node_types", .arr [nodeTypeTypesProto, .str "string", .str "number", .str "number", .str "number", .str "number", .opt (.str "number")]),
  ("edge_fields", .arr [.str "type", .str "name_or_index", .str "to_node"]),
  ("edge_types", .arr [strsP ["context", "element", "property", "internal", "hidden", "shortcut", "weak"], .str "string_or_number", .str "node"]),
  ("trace_function_info_fields", strsP ["function_id", "name", "script_name", "script_id", "line", "column"]),
  ("trace_node_fields", strsP ["id", "function_info_index", "count", "size", "children"]),
  ("sample_fields", strsP ["timestamp_us", "last_assigned_id"]),
  ("location_fields", strsP ["object_index", "script_id", "line", "column"])]

/-- The three recursion modes of `checkMetaData`: checking one value
against one template, the indexed `for` loop over a template array, and
the `for in` loop over a template object's properties. -/
inductive CMode where
  | val (path : String) (data : JVal) (p : GProto)
  | row (path : String) (ds : List JVal) (idx : Nat) (ps : List GProto)
  | props (path : String) (kvs : List (String × JVal)) (kps : List (String × GProto))

/-- Sequencing of two loop iterations: warnings accumulate in order, a
thrown exception aborts the loop, and the boolean results are
conjoined (`ok = checkMetaData(...) && ok`). -/
def combineAnd (a b : List String × Except String Bool) : List String × Except String Bool :=
  match a with
  | (ws, .error e) => (ws, .error e)
  | (ws, .ok ok1) =>
    match b with
    | (ws2, .error e) => (ws ++ ws2, .error e)
    | (ws2, .ok ok2) => (ws ++ ws2, .ok (ok1 && ok2))

/-- The extra-trailing-element warnings of the array branch: a header
plus one line per element beyond the template's length. -/
def extraWarns (path : String) (protoLen : Nat) (ds : List JVal) : List String :=
  if ds.length > protoLen then
    s!"Array at '{path}' has {(ds.length : Int) - (protoLen : Int)} new element!" ::
      (List.range' protoLen (ds.length - protoLen)).map
        (fun idx => s!"- At index {idx}: {jsonStringify (jAt ds idx)}")
  else []

/-- Fuel-indexed body of `checkMetaData` (source lines 109-149).  With
exhausted fuel it answers `ok` — unreachable for `metaDataProto`, whose
depth is far below `checkFuel`. -/
def cmdF : Nat → CMode → List String × Except String Bool
  | 0, _ => ([], .ok true)
  | fuel + 1, .val path data p =>
    match p with
    | .opt q =>
      match data with
      | .undefined => ([], .ok true)
      | _ => cmdF fuel (.val path data q)
    | .str s =>
      match data with
      | .str d =>
        if d = s then ([], .ok true)
        else ([s!"Expected '{path}' to be '{s}' but was '{d}'!"], .ok false)
      | _ => ([s!"Expected '{path}' to be '{s}' but was '{jsToString data}'!"], .ok false)
    | .arr ps =>
      match data with
      | .arr ds =>
        let extra := extraWarns path ps.length ds
        let r := cmdF fuel (.row path ds 0 ps)
        (extra ++ r.1,
          match r.2 with
          | .error e => .error e
          | .ok b => .ok (b && !(decide (ds.length > ps.length))))
      | _ => ([s!"Expected '{path}' to be an array but was {jsonStringify data}!"], .ok false)
    | .obj kps =>
      match data with
      | .arr _ => ([s!"Expected '{path}' to be an object but was {jsonStringify data}!"], .ok false)
      | .obj kvs => cmdF fuel (.props path kvs kps)
      | .null =>
        (match kps with
         | [] => ([], .ok true)
         | (k, _) :: _ => ([], .error s!"TypeError: Cannot read properties of null (reading '{k}')"))
      | _ => ([s!"Expected '{path}' to be an object but was {jsonStringify data}!"], .ok false)
  | fuel + 1, .row path ds idx ps =>
    match ps with
    | [] => ([], .ok true)
    | p :: rest =>
      combineAnd (cmdF fuel (.val s!"{path}[{idx}]" (jAt ds idx) p))
        (cmdF fuel (.row path ds (idx + 1) rest))
  | fuel + 1, .props path kvs kps =>
    match kps with
    | [] => ([], .ok true)
    | (k, p) :: rest =>
      combineAnd (cmdF fuel (.val s!"{path}.{k}" (jLookup kvs k) p))
        (cmdF fuel (.props path kvs rest))

def checkFuel : Nat := 1000

/-- `checkMetaData(path, data, proto)`: the collected `console.warn`
messages paired with the boolean result (or a thrown `TypeError`). -/
def checkMetaData (path : String) (data : JVal) (proto : GProto) : List String × Except String Bool :=
  cmdF checkFuel (.val path data proto)

/-! ## `Sanity.check` (source lines 151-189)

The hard assertions before the drift check (`sanityPre`), the drift check
itself, and the three bulk-array length assertions after it
(`sanityPost`), in source order.  `sanityCheck` returns the outcome
together with every diagnostic printed before completing or aborting. -/

def assertX (desc : String) (cond : Bool) : Except String Unit :=
  if cond then .ok () else .error desc

def assertObject (path : String) (x : JVal) : Except String Unit :=
  assertX s!"{path} is not an object, but is {typeofStr x}" (typeofStr x == "object")

def assertArray (path : String) (arr : JVal) : Except String Unit :=
  assertX s!"{path} is not an array, but is '{typeofStr arr}'" (isArrayB arr)

def assertInteger (path : String) (n : JVal) : Except String Unit :=
  assertX s!"{path} is not an integer, but is '{typeofStr n}'" (isIntegerB n)

def assertLength (name : String) (len : JVal) (expectedLen : Option Int) : Except String Unit :=
  if jsStrictEqNum len expectedLen then .ok ()
  else .error s!"But Expected {renderNum expectedLen} {name}, but got {jsToString len}"

/-- The local constants of `Sanity.check` that survive past the drift
check. -/
structure PreOut where
  snapshot : JVal
  meta : JVal

/-- The root-level assertions of `Sanity.check` (source lines 152-167):
root shape, the six array fields, and the three declared counts.
Returns the `snapshot` local. -/
def sanityRoot (data : JVal) : Except String JVal := do
  assertObject "data" data
  assertArray "data.nodes" (← propAcc data "nodes")
  assertArray "data.edges" (← propAcc data "edges")
  assertArray "data.strings" (← propAcc data "strings")
  assertArray "data.trace_function_infos" (← propAcc data "trace_function_infos")
  assertArray "data.trace_tree" (← propAcc data "trace_tree")
  assertArray "data.samples" (← propAcc data "samples")
  let snapshot ← propAcc data "snapshot"
  assertInteger "data.snapshot.node_count" (← propAcc snapshot "node_count")
  assertInteger "data.snapshot.edge_count" (← propAcc snapshot "edge_count")
  assertInteger "data.snapshot.trace_function_count" (← propAcc snapshot "trace_function_count")
  return snapshot

/-- The meta-descriptor assertions of `Sanity.check` (source lines
169-177): the field/type length equalities and the `ParseInfo`
assertions (at least 6 node fields, exactly 3 edge fields). -/
def sanityMeta (meta : JVal) : Except String Unit := do
  assertObject "data.snapshot.meta" meta
  let nfl ← propAcc (← propAcc meta "node_fields") "length"
  let ntl ← propAcc (← propAcc meta "node_types") "length"
  assertX "data.snapshot.meta.node_fields must have same length as data.snapshot.meta.node_types" (jsLooseEq nfl ntl)
  let efl ← propAcc (← propAcc meta "edge_fields") "length"
  let etl ← propAcc (← propAcc meta "edge_types") "length"
  assertX "data.snapshot.meta.edge_fields must have same length as data.snapshot.meta.edge_types" (jsLooseEq efl etl)
  let nodeFieldCount ← propAcc (← propAcc meta "node_fields") "length"
  let edgeFieldCount ← propAcc (← propAcc meta "edge_fields") "length"
  assertX s!"expected at least 6 node fields, but got {jsToString nodeFieldCount}" (jsGE nodeFieldCount 6)
  assertLength "edge fields" edgeFieldCount (some 3)

/-- All assertions of `Sanity.check` up to and including the edge-field
count (source lines 152-177), in evaluation order. -/
def sanityPre (data : JVal) : Except String PreOut := do
  let snapshot ← sanityRoot data
  let meta ← propAcc snapshot "meta"
  sanityMeta meta
  return { snapshot := snapshot, meta := meta }

/-- The element-count assertions after the drift check (source lines
186-188). -/
def sanityPost (data : JVal) (pre : PreOut) : Except String Unit := do
  let nodesLen ← propAcc (← propAcc data "nodes") "length"
  let nc ← propAcc pre.snapshot "node_count"
  let nfl ← propAcc (← propAcc pre.meta "node_fields") "length"
  assertLength "node elements" nodesLen (jsMul nc nfl)
  let edgesLen ← propAcc (← propAcc data "edges") "length"
  let ec ← propAcc pre.snapshot "edge_count"
  let efl ← propAcc (← propAcc pre.meta "edge_fields") "length"
  assertLength "edge elements" edgesLen (jsMul ec efl)
  let tfiLen ← propAcc (← propAcc data "trace_function_infos") "length"
  let tfc ← propAcc pre.snapshot "trace_function_count"
  let tffl ← propAcc (← propAcc pre.meta "trace_function_info_fields") "length"
  assertLength "trace function elements" tfiLen (jsMul tfc tffl)

def formatChangedMsg : String :=
  "Heapsnapshot format changed! Please report to https://github.com/SrTobi/v8-heapsnapshot/issues"

def continuingMsg : String := "Continuing anyway... :)"

/-- `Sanity.check(data)`: outcome paired with the console diagnostics
emitted before the outcome (warnings of `checkMetaData`, plus the two
`console.error` lines when the drift check reports non-conformance). -/
def sanityCheck (data : JVal) : Except String Unit × List String :=
  match sanityPre data with
  | .error e => (.error e, [])
  | .ok pre =>
    match checkMetaData "data.snapshot.meta" pre.meta metaDataProto with
    | (ws, .error e) => (.error e, ws)
    | (ws, .ok ok) =>
      let ws := ws ++ (if ok then [] else [formatChangedMsg, continuingMsg])
      match sanityPost data pre with
      | .error e => (.error e, ws)
      | .ok _ => (.ok (), ws)

/-- The diagnostics printed by a sequence of decoder invocations over one
process lifetime: `Sanity.check` keeps no state between invocations, so
they simply concatenate. -/
def processDiagnostics (docs : List JVal) : List String :=
  (docs.map (fun d => (sanityCheck d).2)).flatten

/-! ## The typed document layer

`RawSnapshotData` is the TypeScript-declared shape of a parsed snapshot
document (numeric arrays of integers); `encode` renders it back to the
`JVal` that `Sanity.check` inspects.  `node_types[0]` and `edge_types[0]`
are the document's own declared enumeration tables. -/

/-- `snapshot.meta` of a document.  The heads of `node_types` /
`edge_types` are the enumeration tables (element 0); the rests are the
scalar-kind names. -/
structure MetaData where
  node_fields : List String
  node_types_head : List String
  node_types_rest : List String
  edge_fields : List String
  edge_types_head : List String
  edge_types_rest : List String
  trace_function_info_fields : List String
  trace_node_fields : List String
  sample_fields : List String
  location_fields : List String
deriving DecidableEq

def strsArr (l : List String) : JVal := .arr (l.map .str)

def encodeMeta (m : MetaData) : JVal := .obj [
  ("node_fields", strsArr m.node_fields),
  ("node_types", .arr (strsArr m.node_types_head :: m.node_types_rest.map .str)),
  ("edge_fields", strsArr m.edge_fields),
  ("edge_types", .arr (strsArr m.edge_types_head :: m.edge_types_rest.map .str)),
  ("trace_function_info_fields", strsArr m.trace_function_info_fields),
  ("trace_node_fields", strsArr m.trace_node_fields),
  ("sample_fields", strsArr m.sample_fields),
  ("location_fields", strsArr m.location_fields)]

/-- The `RawSnapshotData` TypeScript type. -/
structure RawSnapshotData where
  meta : MetaData
  node_count : Int
  edge_count : Int
  trace_function_count : Int
  nodes : List Int
  edges : List Int
  strings : List String
  trace_function_infos : List JVal
  trace_tree : List JVal
  samples : List JVal

/-- The JSON document a `RawSnapshotData` was parsed from. -/
def encode (d : RawSnapshotData) : JVal := .obj [
  ("snapshot", .obj [
    ("meta", encodeMeta d.meta),
    ("node_count", .num d.node_count),
    ("edge_count", .num d.edge_count),
    ("trace_function_count", .num d.trace_function_count)]),
  ("nodes", .arr (d.nodes.map .num)),
  ("edges", .arr (d.edges.map .num)),
  ("strings", .arr (d.strings.map .str)),
  ("trace_function_infos", .arr d.trace_function_infos),
  ("trace_tree", .arr d.trace_tree),
  ("samples", .arr d.samples)]

structure ParseInfo where
  nodeFieldCount : Nat
  edgeFieldCount : Nat
deriving DecidableEq

/-- `parseInfoFromSnapshot` (source lines 45-50). -/
def parseInfoFromSnapshot (d : RawSnapshotData) : ParseInfo :=
  { nodeFieldCount := d.meta.node_fields.length,
    edgeFieldCount := d.meta.edge_fields.length }

/-- `hasDetachedness` (source lines 36-38). -/
def hasDetachedness (d : RawSnapshotData) : Bool :=
  d.meta.node_fields.length ≥ 7

/-! ## The decode layer -/

/-- `arr[idx]` on a numeric array: `undefined` (`none`) outside bounds. -/
def jsGetNum (arr : List Int) (idx : Int) : Option Int :=
  if h : 0 ≤ idx ∧ idx.toNat < arr.length then some (arr.get ⟨idx.toNat, h.2⟩)
  else none

/-- `arr[idx]` on a string array: `undefined` (`none`) outside bounds. -/
def jsGetStr (arr : List String) (idx : Int) : Option String :=
  if h : 0 ≤ idx ∧ idx.toNat < arr.length then some (arr.get ⟨idx.toNat, h.2⟩)
  else none

/-- `access` (source lines 316-318): `(idx - baseIdx) < length ?
f(arr[idx]) : undefined`.  Note `f` is applied even when `arr[idx]` is
out of bounds (then to `undefined`). -/
def access {β : Type} (arr : List Int) (idx baseIdx length : Int) (f : Option Int → β) : Option β :=
  if idx - baseIdx < length then some (f (jsGetNum arr idx)) else none

/-- An edge name: a literal number, a resolved string, or the
`undefined` produced by an unchecked out-of-bounds string read. -/
inductive EName where
  | num (n : Int)
  | str (s : String)
  | undefined
deriving DecidableEq

/-- An `EdgeImpl` object.  `eidx` is the creation rank and stands for
JavaScript object identity; `«from»`/`«to»` are positions in the decoded
node list and stand for the object references held by the edge. -/
structure EdgeImpl where
  eidx : Nat
  type : Option String
  name : EName
  «from» : Nat
  «to» : Nat
deriving DecidableEq

/-- A `NodeImpl` object; the constructor leaves `out_edges`/`in_edges`
empty and wiring appends to them.  Every decoded field is `Option`al
because a JavaScript read can produce `undefined`. -/
structure NodeImpl where
  type : Option String
  name : Option String
  id : Option Int
  self_size : Option Int
  edge_count : Option Int
  trace_node_id : Option Int
  detached : Option Bool
  out_edges : List EdgeImpl
  in_edges : List EdgeImpl
deriving DecidableEq

/-- One iteration of the `parseNodes` loop (source lines 327-341). -/
def decodeNode (d : RawSnapshotData) (info : ParseInfo) (nodeIndex : Nat) : NodeImpl :=
  let nodeFieldCount : Int := info.nodeFieldCount
  let baseIndex : Int := nodeIndex * nodeFieldCount
  { type := (jsGetNum d.nodes baseIndex).bind (fun t => jsGetStr d.meta.node_types_head t),
    name := (jsGetNum d.nodes (baseIndex + 1)).bind (fun i => jsGetStr d.strings i),
    id := jsGetNum d.nodes (baseIndex + 2),
    self_size := jsGetNum d.nodes (baseIndex + 3),
    edge_count := jsGetNum d.nodes (baseIndex + 4),
    trace_node_id := jsGetNum d.nodes (baseIndex + 5),
    detached := access d.nodes (baseIndex + 6) baseIndex nodeFieldCount (fun num => num == some 1),
    out_edges := [],
    in_edges := [] }

/-- `parseNodes` (source lines 320-343): exactly
`node_count` iterations (a negative or zero count runs none), in index
order. -/
def parseNodes (d : RawSnapshotData) (info : ParseInfo) : List NodeImpl :=
  (List.range d.node_count.toNat).map (decodeNode d info)

/-- The local function `name_or_index` of `parseAndWireEdges` (source
lines 351-359); the captured `strings` table is a parameter here.  For
"element"/"hidden" edges the raw value is the name; otherwise an index
at or above `strings.length` throws, and any other index (negative ones
included) reads the string table unchecked. -/
def name_or_index (strings : List String) (type : Option String) (i : Option Int) : Except String EName :=
  if type == some "element" || type == some "hidden" then
    .ok (match i with
      | some n => .num n
      | none => .undefined)
  else
    match i with
    | some n =>
      if (strings.length : Int) ≤ n then .error "Invalid string index!"
      else .ok (match jsGetStr strings n with
        | some s => .str s
        | none => .undefined)
    | none => .ok .undefined

/-- Resolution of `nodes[edges[edgeIndex] / nodeFieldCount]`: the slot is
a node exactly when the quotient is a non-negative integer below the node
count; otherwise the lookup is `undefined`. -/
def toNodeIndex (nodesLen : Nat) (nfc : Nat) (v : Option Int) : Option Nat :=
  match v with
  | none => none
  | some x =>
    if 0 < nfc ∧ ((nfc : Int) ∣ x) ∧ 0 ≤ x ∧ x / (nfc : Int) < (nodesLen : Int) then
      some ((x / (nfc : Int)).toNat)
    else none

/-- `node.out_edges.push(e)` on the node list (in-place mutation of the
node object at position `i`). -/
def addOutEdge : List NodeImpl → Nat → EdgeImpl → List NodeImpl
  | [], _, _ => []
  | n :: ns, 0, e => { n with out_edges := n.out_edges ++ [e] } :: ns
  | n :: ns, i + 1, e => n :: addOutEdge ns i e

/-- `node.in_edges.push(e)` on the node list. -/
def addInEdge : List NodeImpl → Nat → EdgeImpl → List NodeImpl
  | [], _, _ => []
  | n :: ns, 0, e => { n with in_edges := n.in_edges ++ [e] } :: ns
  | n :: ns, i + 1, e => n :: addInEdge ns i e

/-- The mutable state of `parseAndWireEdges`: the node array being wired,
the `result` array, and the running `edgeIndex` cursor. -/
structure WireSt where
  nodes : List NodeImpl
  result : List EdgeImpl
  edgeIndex : Nat
deriving DecidableEq

/-- One iteration of the inner edge loop (source lines 365-372): read
three consecutive values, resolve type, name and destination, then push
the new edge onto `result`, the origin's `out_edges` and the
destination's `in_edges`.  An unresolvable destination leaves `to_node`
`undefined` and the `to_node.in_edges` access throws. -/
def edgeTypeAt (d : RawSnapshotData) (types : List String) (ei : Nat) : Option String :=
  (jsGetNum d.edges (ei : Int)).bind (fun t => jsGetStr types t)

def wireOne (d : RawSnapshotData) (types : List String) (nfc : Nat) (fromIdx : Nat) (st : WireSt) : Except String WireSt :=
  match name_or_index d.strings (edgeTypeAt d types st.edgeIndex) (jsGetNum d.edges ((st.edgeIndex : Int) + 1)) with
  | .error e => .error e
  | .ok name =>
    match toNodeIndex st.nodes.length nfc (jsGetNum d.edges ((st.edgeIndex : Int) + 2)) with
    | none => .error "TypeError: Cannot read properties of undefined (reading 'in_edges')"
    | some toIdx =>
      .ok { nodes :=
              addInEdge
                (addOutEdge st.nodes fromIdx
                  { eidx := st.result.length, type := edgeTypeAt d types st.edgeIndex,
                    name := name, «from» := fromIdx, «to» := toIdx })
                toIdx
                { eidx := st.result.length, type := edgeTypeAt d types st.edgeIndex,
                  name := name, «from» := fromIdx, «to» := toIdx },
            result := st.result ++
              [{ eidx := st.result.length, type := edgeTypeAt d types st.edgeIndex,
                 name := name, «from» := fromIdx, «to» := toIdx }],
            edgeIndex := st.edgeIndex + 3 }

/-- The inner `for` loop: `k` remaining iterations for the current
origin node. -/
def runEdges (d : RawSnapshotData) (types : List String) (nfc : Nat) (fromIdx : Nat) : Nat → WireSt → Except String WireSt
  | 0, st => .ok st
  | k + 1, st =>
    match wireOne d types nfc fromIdx st with
    | .error e => .error e
    | .ok st' => runEdges d types nfc fromIdx k st'

/-- Iteration count of `for (let c = 0; c < node.edge_count; ++c)`: the
declared count when it is a non-negative number, otherwise zero. -/
def loopIters : Option Int → Nat
  | some n => n.toNat
  | none => 0

/-- The outer `nodes.forEach` loop over the (position, declared
edge_count) pairs. -/
def wireNodes (d : RawSnapshotData) (types : List String) (nfc : Nat) : List (Nat × Option Int) → WireSt → Except String WireSt
  | [], st => .ok st
  | (fromIdx, ec) :: rest, st =>
    match runEdges d types nfc fromIdx (loopIters ec) st with
    | .error e => .error e
    | .ok st' => wireNodes d types nfc rest st'

/-- `parseAndWireEdges` (source lines 345-376).  `forEach` reads each
node's `edge_count` from the node object; wiring never changes that
field, so iterating over the precomputed (position, edge_count) pairs is
equivalent.  Returns the wired node list together with `result`. -/
def parseAndWireEdges (d : RawSnapshotData) (nodes : List NodeImpl) (info : ParseInfo) : Except String (List NodeImpl × List EdgeImpl) :=
  match wireNodes d d.meta.edge_types_head info.nodeFieldCount
      (nodes.enum.map (fun p => (p.1, p.2.edge_count)))
      { nodes := nodes, result := [], edgeIndex := 0 } with
  | .error e => .error e
  | .ok st => .ok (st.nodes, st.result)

/-! ## The graph container (`SnapshotImpl`, source lines 280-314) -/

/-- `Map.prototype.set`: replace an existing entry in place, else append. -/
def mapInsert : List (Option Int × NodeImpl) → Option Int → NodeImpl → List (Option Int × NodeImpl)
  | [], k, v => [(k, v)]
  | (k', v') :: rest, k, v =>
    if k' = k then (k, v) :: rest else (k', v') :: mapInsert rest k v

/-- `Map.prototype.get`. -/
def mapGet : List (Option Int × NodeImpl) → Option Int → Option NodeImpl
  | [], _ => none
  | (k', v) :: rest, k => if k' = k then some v else mapGet rest k

/-- `SnapshotImpl`; `globalCache`/`modulesCache` model the `_global` /
`_modules` backing fields of the lazy getters. -/
structure SnapshotImpl where
  nodes : List NodeImpl
  edges : List EdgeImpl
  hasDetachedness : Bool
  idToNodeMapping : List (Option Int × NodeImpl)
  globalCache : Option NodeImpl
  modulesCache : Option (List NodeImpl)
deriving DecidableEq

/-- The `SnapshotImpl` constructor: builds the id map by iterating the
node list in order, overwriting on duplicate keys. -/
def mkSnapshot (nodes : List NodeImpl) (edges : List EdgeImpl) (hasDet : Bool) : SnapshotImpl :=
  { nodes := nodes,
    edges := edges,
    hasDetachedness := hasDet,
    idToNodeMapping := nodes.foldl (fun m node => mapInsert m node.id node) [],
    globalCache := none,
    modulesCache := none }

/-- `findNodeById` (source lines 293-295). -/
def findNodeById (s : SnapshotImpl) (id : Int) : Option NodeImpl :=
  mapGet s.idToNodeMapping (some id)

/-- The `global` getter (source lines 297-306): returns the located node
and the container state after the access. -/
def globalGet (s : SnapshotImpl) : Except String (NodeImpl × SnapshotImpl) :=
  match s.globalCache with
  | some g => .ok (g, s)
  | none =>
    match s.nodes.find? (fun node => node.name == some "global / ") with
    | some g => .ok (g, { s with globalCache := some g })
    | none => .error "Could not find global object!"

/-- The `modules` getter (source lines 308-313). -/
def modulesGet (s : SnapshotImpl) : List NodeImpl × SnapshotImpl :=
  match s.modulesCache with
  | some m => (m, s)
  | none =>
    let m := s.nodes.filter (fun node => node.name == some "Module" && node.type == some "object")
    (m, { s with modulesCache := some m })

/-- `parseSnapshot` on an already-structured document (source lines
382-407): sanity-check the JSON form, decode nodes, wire edges, build the
container.  The second component is the console diagnostics. -/
def parseSnapshot (d : RawSnapshotData) : Except String SnapshotImpl × List String :=
  match sanityCheck (encode d) with
  | (.error e, ws) => (.error e, ws)
  | (.ok _, ws) =>
    match parseAndWireEdges d (parseNodes d (parseInfoFromSnapshot d)) (parseInfoFromSnapshot d) with
    | .error e => (.error e, ws)
    | .ok (wired, edges) => (.ok (mkSnapshot wired edges (hasDetachedness d)), ws)

/-! ## Concrete documents used by witnesses and counterexamples -/

/-- The canonical 6-field meta descriptor. -/
def stdMeta6 : MetaData :=
  { node_fields := ["type", "name", "id", "self_size", "edge_count", "trace_node_id"],
    node_types_head := ["hidden", "array", "string", "object", "code", "closure", "regexp", "number", "native", "synthetic", "concatenated string", "sliced string", "symbol", "bigint"],
    node_types_rest := ["string", "number", "number", "number", "number"],
    edge_fields := ["type", "name_or_index", "to_node"],
    edge_types_head := ["context", "element", "property", "internal", "hidden", "shortcut", "weak"],
    edge_types_rest := ["string_or_number", "node"],
    trace_function_info_fields := ["function_id", "name", "script_name", "script_id", "line", "column"],
    trace_node_fields := ["id", "function_info_index", "count", "size", "children"],
    sample_fields := ["timestamp_us", "last_assigned_id"],
    location_fields := ["object_index", "script_id", "line", "column"] }

/-- The canonical 7-field meta descriptor (with detachedness). -/
def stdMeta7 : MetaData :=
  { stdMeta6 with
    node_fields := ["type", "name", "id", "self_size", "edge_count", "trace_node_id", "detachedness"],
    node_types_rest := ["string", "number", "number", "number", "number", "number"] }

/-- The end-to-end example of the spec: node A (object, "global / ",
edge_count 1), node B (string, "hi"), one property edge named "x" from A
to B. -/
def endToEndDoc : RawSnapshotData :=
  { meta := stdMeta6,
    node_count := 2, edge_count := 1, trace_function_count := 0,
    nodes := [3, 0, 1, 0, 1, 0, 2, 1, 2, 0, 0, 0],
    edges := [2, 2, 6],
    strings := ["global / ", "hi", "x"],
    trace_function_infos := [], trace_tree := [], samples := [] }

/-- One node declaring zero edges while the document carries one edge
record: the record is left over after all nodes are processed. -/
def leftoverDoc : RawSnapshotData :=
  { meta := stdMeta6,
    node_count := 1, edge_count := 1, trace_function_count := 0,
    nodes := [3, 0, 1, 0, 0, 0],
    edges := [2, 2, 0],
    strings := ["global / ", "hi", "x"],
    trace_function_infos := [], trace_tree := [], samples := [] }

/-- One node declaring five edges while the document carries one edge
record: the edge array runs out mid-decode. -/
def overrunDoc : RawSnapshotData :=
  { meta := stdMeta6,
    node_count := 1, edge_count := 1, trace_function_count := 0,
    nodes := [3, 0, 1, 0, 5, 0],
    edges := [2, 2, 0],
    strings := ["global / ", "hi", "x"],
    trace_function_infos := [], trace_tree := [], samples := [] }

/-- One node with declared edge_count -1. -/
def negEcDoc : RawSnapshotData :=
  { meta := stdMeta6,
    node_count := 1, edge_count := 0, trace_function_count := 0,
    nodes := [3, 0, 1, 0, -1, 0],
    edges := [],
    strings := ["global / "],
    trace_function_infos := [], trace_tree := [], samples := [] }

/-- One node whose type field 99 is outside the 14-element type table. -/
def badTypeDoc : RawSnapshotData :=
  { meta := stdMeta6,
    node_count := 1, edge_count := 0, trace_function_count := 0,
    nodes := [99, 0, 1, 0, 0, 0],
    edges := [],
    strings := ["global / "],
    trace_function_infos := [], trace_tree := [], samples := [] }

/-- A property edge whose name_or_index field is the negative index -1. -/
def negIdxDoc : RawSnapshotData :=
  { meta := stdMeta6,
    node_count := 1, edge_count := 1, trace_function_count := 0,
    nodes := [3, 0, 1, 0, 1, 0],
    edges := [2, -1, 0],
    strings := ["global / "],
    trace_function_infos := [], trace_tree := [], samples := [] }

/-- Two nodes sharing id 1, named "a" and "b". -/
def dupIdDoc : RawSnapshotData :=
  { meta := stdMeta6,
    node_count := 2, edge_count := 0, trace_function_count := 0,
    nodes := [3, 0, 1, 0, 0, 0, 3, 1, 1, 0, 0, 0],
    edges := [],
    strings := ["a", "b"],
    trace_function_infos := [], trace_tree := [], samples := [] }

/-- A snapshot without any node named "global / " and without modules. -/
def noGlobalDoc : RawSnapshotData :=
  { meta := stdMeta6,
    node_count := 1, edge_count := 0, trace_function_count := 0,
    nodes := [3, 0, 1, 0, 0, 0],
    edges := [],
    strings := ["a"],
    trace_function_infos := [], trace_tree := [], samples := [] }

/-- A 7-field document: first node stores detachedness 1, second 0. -/
def det7Doc : RawSnapshotData :=
  { meta := stdMeta7,
    node_count := 2, edge_count := 0, trace_function_count := 0,
    nodes := [3, 0, 1, 0, 0, 0, 1, 2, 1, 2, 0, 0, 0, 0],
    edges := [],
    strings := ["global / ", "hi"],
    trace_function_infos := [], trace_tree := [], samples := [] }

/-- A conforming document except that `node_fields[0]` is "TYPE":
detected as drift, decoding continues. -/
def driftDoc : RawSnapshotData :=
  { meta := { stdMeta6 with node_fields := ["TYPE", "name", "id", "self_size", "edge_count", "trace_node_id"] },
    node_count := 0, edge_count := 0, trace_function_count := 0,
    nodes := [], edges := [], strings := [],
    trace_function_infos := [], trace_tree := [], samples := [] }

/-- Drift in `node_fields[0]` and a bulk-array length mismatch
(node_count 1 but empty nodes array). -/
def driftBadLenDoc : RawSnapshotData :=
  { meta := { stdMeta6 with node_fields := ["TYPE", "name", "id", "self_size", "edge_count", "trace_node_id"] },
    node_count := 1, edge_count := 0, trace_function_count := 0,
    nodes := [], edges := [], strings := [],
    trace_function_infos := [], trace_tree := [], samples := [] }

/-- A document declaring only two edge fields. -/
def edgeFields2Doc : RawSnapshotData :=
  { meta := { stdMeta6 with edge_fields := ["type", "name_or_index"], edge_types_rest := ["string_or_number"] },
    node_count := 0, edge_count := 0, trace_function_count := 0,
    nodes := [], edges := [], strings := [],
    trace_function_infos := [], trace_tree := [], samples := [] }

/-! ## Proof-support definitions -/

instance {α β : Type} [DecidableEq α] [DecidableEq β] : DecidableEq (Except α β) := fun a b =>
  match a, b with
  | .ok x, .ok y =>
    if h : x = y then .isTrue (by rw [h]) else .isFalse (by intro hc; cases hc; exact h rfl)
  | .error x, .error y =>
    if h : x = y then .isTrue (by rw [h]) else .isFalse (by intro hc; cases hc; exact h rfl)
  | .ok _, .error _ => .isFalse (by intro hc; cases hc)
  | .error _, .ok _ => .isFalse (by intro hc; cases hc)

/-- A node with its (mutable) adjacency lists removed; two wire states
with the same stripped nodes carry the same decoded payloads. -/
def stripEdges (n : NodeImpl) : NodeImpl :=
  { n with out_edges := [], in_edges := [] }

/-- Prototype values that contain no object template anywhere.  On such
templates `checkMetaData` can never throw. -/
inductive NoObjP : GProto → Prop where
  | str : ∀ s, NoObjP (.str s)
  | opt : ∀ p, NoObjP p → NoObjP (.opt p)
  | arr : ∀ ps, (∀ p ∈ ps, NoObjP p) → NoObjP (.arr ps)

/-- Modes of `cmdF` on which the checker cannot throw: object templates
occur only at the root, applied to non-`null` data. -/
def CModeSafe : CMode → Prop
  | .val _ data p =>
    NoObjP p ∨ (∃ kps, p = .obj kps ∧ data ≠ .null ∧ ∀ q ∈ kps, NoObjP q.2)
  | .row _ _ _ ps => ∀ p ∈ ps, NoObjP p
  | .props _ _ kps => ∀ q ∈ kps, NoObjP q.2

/-- Invariant of the edge-wiring loop, tying the state to the initial
node list `nodes0`, the edge-type table, the node field count and the
flat edge array of `d`. -/
structure WireInv (d : RawSnapshotData) (types : List String) (nfc : Nat)
    (nodes0 : List NodeImpl) (st : WireSt) : Prop where
  len_eq : st.nodes.length = nodes0.length
  payload : ∀ j, (st.nodes.get? j).map stripEdges = (nodes0.get? j).map stripEdges
  cursor : st.edgeIndex = 3 * st.result.length
  eidx_range : st.result.map EdgeImpl.eidx = List.range st.result.length
  out_char : ∀ j, (st.nodes.get? j).map (fun n => n.out_edges) =
    if j < st.nodes.length then some (st.result.filter (fun e => e.«from» == j)) else none
  in_char : ∀ j, (st.nodes.get? j).map (fun n => n.in_edges) =
    if j < st.nodes.length then some (st.result.filter (fun e => e.«to» == j)) else none
  bounds : ∀ e ∈ st.result, e.«from» < st.nodes.length ∧ e.«to» < st.nodes.length
  raw : ∀ k (h : k < st.result.length),
    (st.result.get ⟨k, h⟩).eidx = k ∧
    (st.result.get ⟨k, h⟩).type = edgeTypeAt d types (3 * k) ∧
    name_or_index d.strings (st.result.get ⟨k, h⟩).type
      (jsGetNum d.edges (((3 * k : Nat) : Int) + 1)) = .ok (st.result.get ⟨k, h⟩).name ∧
    toNodeIndex st.nodes.length nfc (jsGetNum d.edges (((3 * k : Nat) : Int) + 2)) =
      some (st.result.get ⟨k, h⟩).«to»

/-- A default node object (used only as the unreachable fallback of
`forceSnap`/`globalOnce`). -/
def defaultNode : NodeImpl :=
  { type := none, name := none, id := none, self_size := none, edge_count := none,
    trace_node_id := none, detached := none, out_edges := [], in_edges := [] }

/-- The snapshot produced by a successful `parseSnapshot`, with an
unreachable fallback; lets closed statements name the decoded container. -/
def forceSnap (d : RawSnapshotData) : SnapshotImpl :=
  match (parseSnapshot d).1 with
  | .ok s => s
  | .error _ => mkSnapshot [] [] false

/-- The result of one successful `global` access, with an unreachable
fallback; lets closed statements name the returned node and state. -/
def globalOnce (s : SnapshotImpl) : NodeImpl × SnapshotImpl :=
  match globalGet s with
  | .ok p => p
  | .error _ => (defaultNode, s)

/-! ## Helper lemmas -/

theorem addOutEdge_length (ns : List NodeImpl) (i : Nat) (e : EdgeImpl) :
    (addOutEdge ns i e).length = ns.length := by
  induction ns generalizing i with
  | nil => rfl
  | cons n ns ih =>
    cases i with
    | zero => rfl
    | succ i => simp [addOutEdge, ih]

theorem addInEdge_length (ns : List NodeImpl) (i : Nat) (e : EdgeImpl) :
    (addInEdge ns i e).length = ns.length := by
  induction ns generalizing i with
  | nil => rfl
  | cons n ns ih =>
    cases i with
    | zero => rfl
    | succ i => simp [addInEdge, ih]

theorem addOutEdge_get? (ns : List NodeImpl) (i : Nat) (e : EdgeImpl) (j : Nat) :
    (addOutEdge ns i e).get? j =
      if j = i then (ns.get? j).map (fun n => { n with out_edges := n.out_edges ++ [e] })
      else ns.get? j := by
  induction ns generalizing i j with
  | nil => simp [addOutEdge]
  | cons n ns ih =>
    cases i with
    | zero =>
      cases j with
      | zero => simp [addOutEdge]
      | succ j => simp [addOutEdge]
    | succ i =>
      cases j with
      | zero => simp [addOutEdge]
      | succ j => simpa [addOutEdge, Nat.succ_inj] using ih i j

theorem addInEdge_get? (ns : List NodeImpl) (i : Nat) (e : EdgeImpl) (j : Nat) :
    (addInEdge ns i e).get? j =
      if j = i then (ns.get? j).map (fun n => { n with in_edges := n.in_edges ++ [e] })
      else ns.get? j := by
  induction ns generalizing i j with
  | nil => simp [addInEdge]
  | cons n ns ih =>
    cases i with
    | zero =>
      cases j with
      | zero => simp [addInEdge]
      | succ j => simp [addInEdge]
    | succ i =>
      cases j with
      | zero => simp [addInEdge]
      | succ j => simpa [addInEdge, Nat.succ_inj] using ih i j

theorem combineAnd_isOk {a b : List String × Except String Bool}
    (ha : a.2.isOk = true) (hb : b.2.isOk = true) : (combineAnd a b).2.isOk = true := by
  obtain ⟨ws, ra⟩ := a
  obtain ⟨ws2, rb⟩ := b
  cases ra with
  | error e => simp [Except.isOk, Except.toBool] at ha
  | ok b1 =>
    cases rb with
    | error e => simp [Except.isOk, Except.toBool] at hb
    | ok b2 => simp [combineAnd, Except.isOk, Except.toBool]

/-- On a safe mode, `cmdF` never throws. -/
theorem cmdF_safe_isOk : ∀ (fuel : Nat) (m : CMode), CModeSafe m → (cmdF fuel m).2.isOk = true := by
  intro fuel
  induction fuel with
  | zero => intro m _; simp [cmdF, Except.isOk, Except.toBool]
  | succ fuel ih =>
    intro m hm
    match m with
    | .val path data p =>
      rcases hm with hno | ⟨kps, rfl, hnn, hvals⟩
      · cases hno with
        | str s =>
          cases data <;> simp only [cmdF] <;>
            first
              | (split <;> simp [Except.isOk, Except.toBool])
              | simp [Except.isOk, Except.toBool]
        | opt q hq =>
          cases data <;> simp [cmdF, Except.isOk, Except.toBool] <;>
            exact ih _ (Or.inl hq)
        | arr ps hps =>
          cases data <;> simp [cmdF, Except.isOk, Except.toBool]
          case arr ds =>
            have := ih (.row path ds 0 ps) hps
            rcases hrow : (cmdF fuel (.row path ds 0 ps)).2 with e | b
            · rw [hrow] at this; simp [Except.isOk, Except.toBool] at this
            · simp [hrow, Except.isOk, Except.toBool]
      · cases data <;> simp [cmdF, Except.isOk, Except.toBool]
        case obj kvs => exact ih _ hvals
        case null => exact absurd rfl hnn
    | .row path ds idx ps =>
      match ps with
      | [] => simp [cmdF, Except.isOk, Except.toBool]
      | p :: rest =>
        have h1 := ih (.val s!"{path}[{idx}]" (jAt ds idx) p) (Or.inl (hm p (by simp)))
        have h2 := ih (.row path ds (idx + 1) rest) (fun q hq => hm q (by simp [hq]))
        exact combineAnd_isOk h1 h2
    | .props path kvs kps =>
      match kps with
      | [] => simp [cmdF, Except.isOk, Except.toBool]
      | (k, p) :: rest =>
        have h1 := ih (.val s!"{path}.{k}" (jLookup kvs k) p) (Or.inl (hm (k, p) (by simp)))
        have h2 := ih (.props path kvs rest) (fun q hq => hm q (by simp [hq]))
        exact combineAnd_isOk h1 h2

theorem strsP_noObj (l : List String) : NoObjP (strsP l) := by
  refine NoObjP.arr _ ?_
  intro p hp
  simp [List.mem_map] at hp
  obtain ⟨s, _, rfl⟩ := hp
  exact NoObjP.str s

/-- Every property value of `metaDataProto` is object-free. -/
theorem metaDataProto_vals_noObj :
    ∀ q ∈ [
      ("node_fields", GProto.arr [.str "type", .str "name", .str "id", .str "self_size", .str "edge_count", .str "trace_node_id", .opt (.str "detachedness")]),
      ("node_types", GProto.arr [nodeTypeTypesProto, .str "string", .str "number", .str "number", .str "number", .str "number", .opt (.str "number")]),
      ("edge_fields", GProto.arr [.str "type", .str "name_or_index", .str "to_node"]),
      ("edge_types", GProto.arr [strsP ["context", "element", "property", "internal", "hidden", "shortcut", "weak"], .str "string_or_number", .str "node"]),
      ("trace_function_info_fields", strsP ["function_id", "name", "script_name", "script_id", "line", "column"]),
      ("trace_node_fields", strsP ["id", "function_info_index", "count", "size", "children"]),
      ("sample_fields", strsP ["timestamp_us", "last_assigned_id"]),
      ("location_fields", strsP ["object_index", "script_id", "line", "column"])], NoObjP q.2 := by
  intro q hq
  simp only [List.mem_cons, List.not_mem_nil, or_false] at hq
  rcases hq with rfl | rfl | rfl | rfl | rfl | rfl | rfl | rfl
  · refine NoObjP.arr _ ?_
    intro p hp
    simp only [List.mem_cons, List.not_mem_nil, or_false] at hp
    rcases hp with rfl | rfl | rfl | rfl | rfl | rfl | rfl
    all_goals first
      | exact NoObjP.str _
      | exact NoObjP.opt _ (NoObjP.str _)
  · refine NoObjP.arr _ ?_
    intro p hp
    simp only [List.mem_cons, List.not_mem_nil, or_false] at hp
    rcases hp with rfl | rfl | rfl | rfl | rfl | rfl | rfl
    all_goals first
      | exact strsP_noObj _
      | exact NoObjP.str _
      | exact NoObjP.opt _ (NoObjP.str _)
  · refine NoObjP.arr _ ?_
    intro p hp
    simp only [List.mem_cons, List.not_mem_nil, or_false] at hp
    rcases hp with rfl | rfl | rfl
    all_goals exact NoObjP.str _
  · refine NoObjP.arr _ ?_
    intro p hp
    simp only [List.mem_cons, List.not_mem_nil, or_false] at hp
    rcases hp with rfl | rfl | rfl
    all_goals first
      | exact strsP_noObj _
      | exact NoObjP.str _
  all_goals exact strsP_noObj _

/-- The drift check never throws on non-`null` data. -/
theorem checkMetaData_isOk (data : JVal) (hnn : data ≠ .null) (path : String) :
    (checkMetaData path data metaDataProto).2.isOk = true := by
  refine cmdF_safe_isOk _ _ ?_
  exact Or.inr ⟨_, rfl, hnn, metaDataProto_vals_noObj⟩

/-- If the meta assertions succeed, the meta descriptor is an object
literal: `null` fails the `node_fields` read, arrays and scalars fail
the `.length` read or the object assertion. -/
theorem sanityMeta_obj {meta : JVal} (h : (sanityMeta meta).isOk = true) :
    ∃ kvs, meta = .obj kvs := by
  cases meta <;>
    simp [sanityMeta, assertObject, assertArray, assertInteger, assertX, typeofStr, propAcc,
      bind, Except.bind, Except.isOk, Except.toBool] at h ⊢

theorem sanityPre_meta {d : JVal} {pre : PreOut} (h : sanityPre d = .ok pre) :
    (sanityMeta pre.meta).isOk = true := by
  unfold sanityPre at h
  simp only [bind, Except.bind] at h
  split at h
  · exact absurd h (by simp)
  · split at h
    · exact absurd h (by simp)
    · split at h
      · exact absurd h (by simp)
      · rename_i snapshot hsnap meta hmeta u hmeta2
        simp only [pure, Except.pure] at h
        cases h
        simp [hmeta2, Except.isOk, Except.toBool]

theorem jsGetNum_some_bound {arr : List Int} {idx : Int} {v : Int}
    (h : jsGetNum arr idx = some v) : 0 ≤ idx ∧ idx.toNat < arr.length := by
  unfold jsGetNum at h
  split at h
  · rename_i hc; exact hc
  · cases h

theorem toNodeIndex_lt {len nfc : Nat} {v : Option Int} {ti : Nat}
    (h : toNodeIndex len nfc v = some ti) : ti < len ∧ ∃ x, v = some x := by
  cases v with
  | none => simp [toNodeIndex] at h
  | some x =>
    simp only [toNodeIndex] at h
    split at h
    · rename_i hc
      obtain ⟨h1, h2, h3, h4⟩ := hc
      cases h
      have hq : 0 ≤ x / (nfc : Int) := Int.ediv_nonneg h3 (by omega)
      exact ⟨by omega, x, rfl⟩
    · cases h

theorem getAppendLeft {α : Type} (l l' : List α) (k : Nat) (h : k < l.length) (h2 : k < (l ++ l').length) :
    (l ++ l').get ⟨k, h2⟩ = l.get ⟨k, h⟩ := by
  induction l generalizing k with
  | nil => exact absurd h (by simp)
  | cons a t ih =>
    cases k with
    | zero => rfl
    | succ k => exact ih k (by simpa using h) _

theorem getAppendLast {α : Type} (l : List α) (a : α) (h : l.length < (l ++ [a]).length) :
    (l ++ [a]).get ⟨l.length, h⟩ = a := by
  induction l with
  | nil => rfl
  | cons b t ih => exact ih _

theorem addOutEdge_outMap (ns : List NodeImpl) (i : Nat) (e : EdgeImpl) (j : Nat) :
    ((addOutEdge ns i e).get? j).map (fun n => n.out_edges) =
      if j = i then ((ns.get? j).map (fun n => n.out_edges)).map (fun l => l ++ [e])
      else (ns.get? j).map (fun n => n.out_edges) := by
  rw [addOutEdge_get?]
  by_cases hj : j = i <;> cases hsj : ns.get? j <;> simp [hj, hsj]

theorem addOutEdge_inMap (ns : List NodeImpl) (i : Nat) (e : EdgeImpl) (j : Nat) :
    ((addOutEdge ns i e).get? j).map (fun n => n.in_edges) =
      (ns.get? j).map (fun n => n.in_edges) := by
  rw [addOutEdge_get?]
  by_cases hj : j = i <;> cases hsj : ns.get? j <;> simp [hj, hsj]

theorem addInEdge_inMap (ns : List NodeImpl) (i : Nat) (e : EdgeImpl) (j : Nat) :
    ((addInEdge ns i e).get? j).map (fun n => n.in_edges) =
      if j = i then ((ns.get? j).map (fun n => n.in_edges)).map (fun l => l ++ [e])
      else (ns.get? j).map (fun n => n.in_edges) := by
  rw [addInEdge_get?]
  by_cases hj : j = i <;> cases hsj : ns.get? j <;> simp [hj, hsj]

theorem addInEdge_outMap (ns : List NodeImpl) (i : Nat) (e : EdgeImpl) (j : Nat) :
    ((addInEdge ns i e).get? j).map (fun n => n.out_edges) =
      (ns.get? j).map (fun n => n.out_edges) := by
  rw [addInEdge_get?]
  by_cases hj : j = i <;> cases hsj : ns.get? j <;> simp [hj, hsj]

theorem addOutEdge_stripMap (ns : List NodeImpl) (i : Nat) (e : EdgeImpl) (j : Nat) :
    ((addOutEdge ns i e).get? j).map stripEdges = (ns.get? j).map stripEdges := by
  rw [addOutEdge_get?]
  by_cases hj : j = i <;> cases hsj : ns.get? j <;> simp [hj, hsj, stripEdges]

theorem addInEdge_stripMap (ns : List NodeImpl) (i : Nat) (e : EdgeImpl) (j : Nat) :
    ((addInEdge ns i e).get? j).map stripEdges = (ns.get? j).map stripEdges := by
  rw [addInEdge_get?]
  by_cases hj : j = i <;> cases hsj : ns.get? j <;> simp [hj, hsj, stripEdges]

theorem wireOne_ok {d : RawSnapshotData} {types : List String} {nfc : Nat}
    {nodes0 : List NodeImpl} {fromIdx : Nat} {st st' : WireSt}
    (hf : fromIdx < st.nodes.length)
    (inv : WireInv d types nfc nodes0 st)
    (h : wireOne d types nfc fromIdx st = .ok st') :
    WireInv d types nfc nodes0 st' ∧
      st'.result.length = st.result.length + 1 ∧
      st'.nodes.length = st.nodes.length ∧
      st.edgeIndex + 3 ≤ d.edges.length := by
  unfold wireOne at h
  split at h
  · exact absurd h (by simp)
  rename_i x1 name hn
  split at h
  · exact absurd h (by simp)
  rename_i x2 toIdx ht
  cases h
  have hti : toIdx < st.nodes.length := (toNodeIndex_lt ht).1
  have hsupply : st.edgeIndex + 3 ≤ d.edges.length := by
    obtain ⟨-, x, hx⟩ := toNodeIndex_lt ht
    have := jsGetNum_some_bound hx
    omega
  refine ⟨⟨?_, ?_, ?_, ?_, ?_, ?_, ?_, ?_⟩, by simp,
    by simp [addInEdge_length, addOutEdge_length], hsupply⟩
  · simpa [addInEdge_length, addOutEdge_length] using inv.len_eq
  · intro j
    dsimp only
    rw [addInEdge_stripMap, addOutEdge_stripMap]
    exact inv.payload j
  · have := inv.cursor
    dsimp only
    simp only [List.length_append, List.length_cons, List.length_nil]
    omega
  · dsimp only
    rw [List.map_append, inv.eidx_range]
    simp [List.range_succ]
  · intro j
    dsimp only
    rw [addInEdge_outMap, addOutEdge_outMap, addInEdge_length, addOutEdge_length]
    simp only [inv.out_char j]
    by_cases hj : j < st.nodes.length <;> by_cases hjf : j = fromIdx
    · simp [hj, hjf, List.filter_append, List.filter_singleton]
    · simp [hj, hjf, List.filter_append, List.filter_singleton, Ne.symm hjf]
    · simp [hj, hjf]
    · simp [hj, hjf]
  · intro j
    dsimp only
    rw [addInEdge_inMap, addOutEdge_inMap, addInEdge_length, addOutEdge_length]
    simp only [inv.in_char j]
    by_cases hj : j < st.nodes.length <;> by_cases hjt : j = toIdx
    · simp [hj, hjt, List.filter_append, List.filter_singleton]
    · simp [hj, hjt, List.filter_append, List.filter_singleton, Ne.symm hjt]
    · simp [hj, hjt]
    · simp [hj, hjt]
  · intro e' he'
    dsimp only at he' ⊢
    rw [addInEdge_length, addOutEdge_length]
    rcases List.mem_append.mp he' with h' | h'
    · exact inv.bounds e' h'
    · simp only [List.mem_singleton] at h'
      subst h'
      exact ⟨hf, hti⟩
  · intro k hk
    dsimp only at hk ⊢
    rw [addInEdge_length, addOutEdge_length]
    simp only [List.length_append, List.length_cons, List.length_nil] at hk
    by_cases hklt : k < st.result.length
    · rw [getAppendLeft st.result _ k hklt]
      exact inv.raw k hklt
    · have hkeq : k = st.result.length := by omega
      subst hkeq
      rw [getAppendLast]
      refine ⟨rfl, ?_, ?_, ?_⟩
      · dsimp only
        rw [← inv.cursor]
      · dsimp only
        rw [← inv.cursor]
        exact hn
      · dsimp only
        rw [← inv.cursor]
        exact ht

theorem runEdges_ok {d : RawSnapshotData} {types : List String} {nfc : Nat}
    {nodes0 : List NodeImpl} {fromIdx : Nat} :
    ∀ (k : Nat) {st st' : WireSt}, fromIdx < nodes0.length →
      WireInv d types nfc nodes0 st →
      runEdges d types nfc fromIdx k st = .ok st' →
      WireInv d types nfc nodes0 st' ∧ st'.result.length = st.result.length + k := by
  intro k
  induction k with
  | zero =>
    intro st st' _ inv h
    cases h
    exact ⟨inv, by omega⟩
  | succ k ih =>
    intro st st' hf inv h
    unfold runEdges at h
    split at h
    · exact absurd h (by simp)
    rename_i st1 hw1
    have hflt : fromIdx < st.nodes.length := by rw [inv.len_eq]; exact hf
    obtain ⟨inv1, hlen1, hnlen1, -⟩ := wireOne_ok hflt inv hw1
    obtain ⟨inv', hlen'⟩ := ih hf inv1 h
    exact ⟨inv', by omega⟩

theorem wireNodes_ok {d : RawSnapshotData} {types : List String} {nfc : Nat}
    {nodes0 : List NodeImpl} :
    ∀ (l : List (Nat × Option Int)) {st st' : WireSt},
      (∀ p ∈ l, p.1 < nodes0.length) →
      WireInv d types nfc nodes0 st →
      wireNodes d types nfc l st = .ok st' →
      WireInv d types nfc nodes0 st' ∧
        st'.result.length = st.result.length + (l.map (fun p => loopIters p.2)).sum := by
  intro l
  induction l with
  | nil =>
    intro st st' _ inv h
    cases h
    exact ⟨inv, by simp⟩
  | cons p rest ih =>
    obtain ⟨fi, ec⟩ := p
    intro st st' hb inv h
    unfold wireNodes at h
    split at h
    · exact absurd h (by simp)
    rename_i st1 hrun
    obtain ⟨inv1, hlen1⟩ := runEdges_ok (loopIters ec) (hb (fi, ec) (by simp)) inv hrun
    obtain ⟨inv', hlen'⟩ := ih (fun q hq => hb q (by simp [hq])) inv1 h
    refine ⟨inv', ?_⟩
    simp only [List.map_cons, List.sum_cons]
    omega

theorem wireInv_init (d : RawSnapshotData) (types : List String) (nfc : Nat)
    (nodes0 : List NodeImpl)
    (h0 : ∀ n ∈ nodes0, n.out_edges = [] ∧ n.in_edges = []) :
    WireInv d types nfc nodes0 { nodes := nodes0, result := [], edgeIndex := 0 } := by
  refine ⟨rfl, fun j => rfl, rfl, rfl, ?_, ?_, by simp, by intro k hk; exact absurd hk (by simp)⟩
  · intro j
    dsimp only
    by_cases hj : j < nodes0.length
    · rw [List.get?_eq_get hj]
      simp only [hj, if_true, List.filter_nil, Option.map_some]
      exact congrArg some ((h0 _ (List.get_mem nodes0 j hj)).1)
    · rw [List.get?_eq_none.mpr (by omega : nodes0.length ≤ j)]
      simp [hj]
  · intro j
    dsimp only
    by_cases hj : j < nodes0.length
    · rw [List.get?_eq_get hj]
      simp only [hj, if_true, List.filter_nil, Option.map_some]
      exact congrArg some ((h0 _ (List.get_mem nodes0 j hj)).2)
    · rw [List.get?_eq_none.mpr (by omega : nodes0.length ≤ j)]
      simp [hj]

theorem enum_fst_lt {α : Type} {l : List α} {p : Nat × α} (h : p ∈ l.enum) : p.1 < l.length := by
  have h2 := List.of_mem_zip (by rw [← List.enum_eq_zip_range] at *; exact h)
  exact List.mem_range.mp h2.1

theorem parseAndWireEdges_ok {d : RawSnapshotData} {nodes : List NodeImpl} {info : ParseInfo}
    {wired : List NodeImpl} {edges : List EdgeImpl}
    (h0 : ∀ n ∈ nodes, n.out_edges = [] ∧ n.in_edges = [])
    (h : parseAndWireEdges d nodes info = .ok (wired, edges)) :
    ∃ ei, WireInv d d.meta.edge_types_head info.nodeFieldCount nodes
        { nodes := wired, result := edges, edgeIndex := ei } ∧
      edges.length = (nodes.map (fun n => loopIters n.edge_count)).sum := by
  unfold parseAndWireEdges at h
  split at h
  · exact absurd h (by simp)
  rename_i st hw
  have hb : ∀ p ∈ nodes.enum.map (fun p => (p.1, p.2.edge_count)), p.1 < nodes.length := by
    intro p hp
    simp only [List.mem_map] at hp
    obtain ⟨q, hq, rfl⟩ := hp
    exact enum_fst_lt hq
  obtain ⟨inv', hlen⟩ := wireNodes_ok _ hb (wireInv_init d _ _ nodes h0) hw
  cases h
  refine ⟨st.edgeIndex, ?_, ?_⟩
  · exact inv'
  · rw [hlen]
    simp only [List.map_map, Nat.zero_add]
    rw [show ((fun p => loopIters p.2) ∘ fun p => ((p : Nat × NodeImpl).1, p.2.edge_count)) =
        (fun n => loopIters n.edge_count) ∘ Prod.snd from rfl]
    rw [← List.map_map, List.enum_map_snd]
    simp

theorem parseNodes_length (d : RawSnapshotData) (info : ParseInfo) :
    (parseNodes d info).length = d.node_count.toNat := by
  simp [parseNodes]

theorem parseNodes_get (d : RawSnapshotData) (info : ParseInfo) (i : Nat)
    (h : i < (parseNodes d info).length) :
    (parseNodes d info).get ⟨i, h⟩ = decodeNode d info i := by
  simp [parseNodes]

theorem parseNodes_empty_edges (d : RawSnapshotData) (info : ParseInfo) :
    ∀ n ∈ parseNodes d info, n.out_edges = [] ∧ n.in_edges = [] := by
  intro n hn
  simp only [parseNodes, List.mem_map] at hn
  obtain ⟨i, -, rfl⟩ := hn
  exact ⟨rfl, rfl⟩

theorem parseSnapshot_sanity_error {d : RawSnapshotData} {e : String} {ws : List String}
    (h : sanityCheck (encode d) = (.error e, ws)) : parseSnapshot d = (.error e, ws) := by
  unfold parseSnapshot
  rw [h]

theorem parseSnapshot_ok_inv {d : RawSnapshotData} {snap : SnapshotImpl} {ws : List String}
    (h : parseSnapshot d = (.ok snap, ws)) :
    ∃ wired edges,
      sanityCheck (encode d) = (.ok (), ws) ∧
      parseAndWireEdges d (parseNodes d (parseInfoFromSnapshot d)) (parseInfoFromSnapshot d) =
        .ok (wired, edges) ∧
      snap = mkSnapshot wired edges (hasDetachedness d) := by
  unfold parseSnapshot at h
  split at h
  · simp at h
  rename_i p u ws' hs
  split at h
  · simp at h
  rename_i q wired edges hw
  simp only [Prod.mk.injEq, Except.ok.injEq] at h
  obtain ⟨rfl, rfl⟩ := h
  exact ⟨wired, edges, hs, hw, rfl⟩

theorem wireInv_supply {d : RawSnapshotData} {types : List String} {nfc : Nat}
    {nodes0 : List NodeImpl} {st : WireSt} (inv : WireInv d types nfc nodes0 st) :
    3 * st.result.length ≤ d.edges.length := by
  cases hN : st.result.length with
  | zero => omega
  | succ m =>
    have hm : m < st.result.length := by omega
    obtain ⟨-, -, -, h4⟩ := inv.raw m hm
    obtain ⟨-, x, hx⟩ := toNodeIndex_lt h4
    have := jsGetNum_some_bound hx
    omega

theorem sum_map_add {α : Type} (l : List α) (f g : α → Nat) :
    (l.map (fun x => f x + g x)).sum = (l.map f).sum + (l.map g).sum := by
  induction l with
  | nil => rfl
  | cons a t ih =>
    simp only [List.map_cons, List.sum_cons, ih]
    omega

theorem indicator_sum (N k : Nat) :
    ((List.range N).map (fun j => if k == j then 1 else 0)).sum = if k < N then 1 else 0 := by
  induction N with
  | zero => simp
  | succ N ih =>
    rw [List.range_succ, List.map_append, List.sum_append, ih]
    simp only [List.map_cons, List.map_nil, List.sum_cons, List.sum_nil, beq_iff_eq]
    split_ifs <;> omega

theorem sum_filter_lengths {α : Type} (f : α → Nat) :
    ∀ (l : List α) (N : Nat), (∀ e ∈ l, f e < N) →
      ((List.range N).map (fun j => (l.filter (fun e => f e == j)).length)).sum = l.length := by
  intro l
  induction l with
  | nil => intro N _; simp
  | cons a t ih =>
    intro N hb
    have hfa : f a < N := hb a (by simp)
    have step : ((List.range N).map (fun j => ((a :: t).filter (fun e => f e == j)).length)) =
        ((List.range N).map (fun j =>
          (if f a == j then 1 else 0) + (t.filter (fun e => f e == j)).length)) := by
      congr 1
      funext j
      rw [List.filter_cons]
      by_cases h : f a = j
      · simp [h]
        omega
      · simp [h]
    rw [step, sum_map_add, indicator_sum, ih N (fun e he => hb e (by simp [he]))]
    simp [hfa]
    omega

theorem map_proj_lengths {nodes : List NodeImpl} {edges : List EdgeImpl}
    (proj : NodeImpl → List EdgeImpl) (sel : EdgeImpl → Nat)
    (h : ∀ j, (nodes.get? j).map (fun n => proj n) =
      if j < nodes.length then some (edges.filter (fun e => sel e == j)) else none) :
    nodes.map (fun n => (proj n).length) =
      (List.range nodes.length).map (fun j => (edges.filter (fun e => sel e == j)).length) := by
  apply List.ext_get (by simp)
  intro i h1 h2
  have hi : i < nodes.length := by simpa using h1
  have hh := h i
  rw [List.get?_eq_get hi] at hh
  simp only [hi, if_true] at hh
  have hh2 : proj (nodes.get ⟨i, hi⟩) = edges.filter (fun e => sel e == i) := by
    simpa using hh
  simp only [List.getElem_map, List.getElem_range, List.get_eq_getElem]
  exact congrArg List.length hh2

theorem sum_proj_lengths {nodes : List NodeImpl} {edges : List EdgeImpl}
    (proj : NodeImpl → List EdgeImpl) (sel : EdgeImpl → Nat)
    (h : ∀ j, (nodes.get? j).map (fun n => proj n) =
      if j < nodes.length then some (edges.filter (fun e => sel e == j)) else none)
    (hb : ∀ e ∈ edges, sel e < nodes.length) :
    (nodes.map (fun n => (proj n).length)).sum = edges.length := by
  rw [map_proj_lengths proj sel h]
  exact sum_filter_lengths sel edges nodes.length hb

theorem mapGet_mapInsert_eq (m : List (Option Int × NodeImpl)) (k : Option Int) (v : NodeImpl) :
    mapGet (mapInsert m k v) k = some v := by
  induction m with
  | nil => simp [mapInsert, mapGet]
  | cons p rest ih =>
    obtain ⟨k', v'⟩ := p
    by_cases h : k' = k <;> simp [mapInsert, mapGet, h, ih]

theorem mapGet_mapInsert_ne (m : List (Option Int × NodeImpl)) (k k' : Option Int) (v : NodeImpl)
    (h : k' ≠ k) : mapGet (mapInsert m k v) k' = mapGet m k' := by
  induction m with
  | nil => simp [mapInsert, mapGet, Ne.symm h]
  | cons p rest ih =>
    obtain ⟨k2, v2⟩ := p
    simp only [mapInsert]
    by_cases h2 : k2 = k
    · simp only [h2, if_pos rfl, mapGet]
      rw [if_neg (fun hh => h hh.symm), if_neg (fun hh => h hh.symm)]
    · simp only [if_neg h2, mapGet]
      by_cases h3 : k2 = k' <;> simp [h3, ih]

theorem getLast?_cons_match {α : Type} (a : α) (l : List α) :
    (a :: l).getLast? = match l.getLast? with
      | some v => some v
      | none => some a := by
  cases l with
  | nil => rfl
  | cons b t =>
    rw [List.getLast?_cons_cons]
    cases hx : (b :: t).getLast? with
    | some v => rfl
    | none =>
      exfalso
      simp [List.getLast?_eq_none_iff] at hx

theorem mapGet_foldl (l : List NodeImpl) :
    ∀ (m : List (Option Int × NodeImpl)) (k : Option Int),
      mapGet (l.foldl (fun m n => mapInsert m n.id n) m) k =
        match (l.filter (fun n => n.id == k)).getLast? with
        | some v => some v
        | none => mapGet m k := by
  induction l with
  | nil => intro m k; rfl
  | cons a t ih =>
    intro m k
    rw [List.foldl_cons, ih]
    by_cases h : a.id = k
    · rw [List.filter_cons_of_pos (by simp [h]), getLast?_cons_match]
      cases hl : (t.filter (fun n => n.id == k)).getLast? with
      | some v => rfl
      | none =>
        subst h
        simp [mapGet_mapInsert_eq]
    · rw [List.filter_cons_of_neg (by simp [h])]
      rw [mapGet_mapInsert_ne m a.id k a (fun hh => h hh.symm)]

theorem findNodeById_mk (nodes : List NodeImpl) (edges : List EdgeImpl) (det : Bool) (id : Int) :
    findNodeById (mkSnapshot nodes edges det) id =
      (nodes.filter (fun n => n.id == some id)).getLast? := by
  unfold findNodeById mkSnapshot
  rw [mapGet_foldl]
  cases hx : (nodes.filter (fun n => n.id == some id)).getLast? <;> simp [mapGet]

theorem globalGet_cached {s : SnapshotImpl} {v : NodeImpl} {s' : SnapshotImpl}
    (h : globalGet s = .ok (v, s')) : globalGet s' = .ok (v, s') := by
  unfold globalGet at h ⊢
  cases hc : s.globalCache with
  | some g =>
    rw [hc] at h
    simp only [Except.ok.injEq, Prod.mk.injEq] at h
    obtain ⟨rfl, rfl⟩ := h
    rw [hc]
  | none =>
    rw [hc] at h
    cases hf : s.nodes.find? (fun node => node.name == some "global / ") with
    | some g =>
      rw [hf] at h
      simp only [Except.ok.injEq, Prod.mk.injEq] at h
      obtain ⟨rfl, rfl⟩ := h
      rfl
    | none =>
      rw [hf] at h
      cases h

theorem modulesGet_cached {s : SnapshotImpl} {m : List NodeImpl} {s' : SnapshotImpl}
    (h : modulesGet s = (m, s')) : modulesGet s' = (m, s') := by
  unfold modulesGet at h ⊢
  cases hc : s.modulesCache with
  | some c =>
    rw [hc] at h
    simp only [Prod.mk.injEq] at h
    obtain ⟨rfl, rfl⟩ := h
    rw [hc]
  | none =>
    rw [hc] at h
    simp only [Prod.mk.injEq] at h
    obtain ⟨rfl, rfl⟩ := h
    rfl

theorem globalGet_not_found {s : SnapshotImpl} (hc : s.globalCache = none)
    (h : ∀ n ∈ s.nodes, n.name ≠ some "global / ") :
    globalGet s = .error "Could not find global object!" := by
  unfold globalGet
  rw [hc, List.find?_eq_none.mpr (by intro n hn; simpa using h n hn)]

theorem toNodeIndex_some_inv {len nfc : Nat} {v : Option Int} {ti : Nat}
    (h : toNodeIndex len nfc v = some ti) :
    ∃ x, v = some x ∧ ((nfc : Int) ∣ x) ∧ 0 ≤ x ∧ (ti : Int) = x / (nfc : Int) ∧ ti < len := by
  cases v with
  | none => simp [toNodeIndex] at h
  | some x =>
    simp only [toNodeIndex] at h
    split at h
    · rename_i hc
      obtain ⟨h1, h2, h3, h4⟩ := hc
      cases h
      have hq : 0 ≤ x / (nfc : Int) := Int.ediv_nonneg h3 (by omega)
      exact ⟨x, rfl, h2, h3, Int.toNat_of_nonneg hq, by omega⟩
    · cases h

theorem payload_map_eq {α : Type} {wired nodes0 : List NodeImpl}
    (hlen : wired.length = nodes0.length)
    (hp : ∀ j, (wired.get? j).map stripEdges = (nodes0.get? j).map stripEdges)
    (f : NodeImpl → α) (hf : ∀ n, f (stripEdges n) = f n) :
    wired.map f = nodes0.map f := by
  apply List.ext_get (by simp [hlen])
  intro i h1 h2
  have hi1 : i < wired.length := by simpa using h1
  have hi2 : i < nodes0.length := by simpa using h2
  have hh := hp i
  rw [List.get?_eq_get hi1, List.get?_eq_get hi2] at hh
  have hh2 : stripEdges (wired.get ⟨i, hi1⟩) = stripEdges (nodes0.get ⟨i, hi2⟩) := by
    simpa using hh
  simp only [List.getElem_map, List.get_eq_getElem]
  calc f wired[i] = f (stripEdges (wired.get ⟨i, hi1⟩)) := (hf _).symm
    _ = f (stripEdges (nodes0.get ⟨i, hi2⟩)) := congrArg f hh2
    _ = f (nodes0.get ⟨i, hi2⟩) := hf _

theorem declared_sum_eq (l : List NodeImpl)
    (h : ∀ n ∈ l, ∃ c, n.edge_count = some c ∧ 0 ≤ c) :
    (l.map (fun n => n.edge_count.getD 0)).sum = (((l.map (fun n => loopIters n.edge_count)).sum : Nat) : Int) := by
  induction l with
  | nil => rfl
  | cons a t ih =>
    obtain ⟨c, hc, hc0⟩ := h a (by simp)
    have ht := ih (fun n hn => h n (by simp [hn]))
    simp only [List.map_cons, List.sum_cons, ht, hc, Option.getD_some, loopIters]
    push_cast
    omega

/-! ## Claim theorems -/

/-- C1 counterexample: `leftoverDoc` declares one edge record (three flat
elements) but its only node declares edge_count 0, so a record is left
over after all nodes are processed; the claim says `parseSnapshot` must
then fail, yet it returns a graph (with zero decoded edges). -/
theorem c1_counterexample :
    (parseSnapshot leftoverDoc).1.isOk = true ∧
    leftoverDoc.edges.length = 3 ∧
    ((parseSnapshot leftoverDoc).1.toOption.map
      (fun s => (s.nodes.map (fun n => loopIters n.edge_count)).sum)) = some 0 ∧
    ((parseSnapshot leftoverDoc).1.toOption.map (fun s => s.edges.length)) = some 0 := by
  decide

/-- C1 (amended): edge decoding consumes the flat edge array in
node-major order and on success produces exactly the sum of the decoded
nodes' declared edge counts (clamped at zero) many edges, consuming
three elements per edge, never more than the array holds; when the edge
array runs out before the declared counts are satisfied, `parseSnapshot`
fails; but records left over after all nodes are processed are silently
ignored and a graph is returned (no lockstep-exhaustion check exists). -/
theorem c1_amended :
    (∀ (d : RawSnapshotData) (snap : SnapshotImpl) (ws : List String),
      parseSnapshot d = (.ok snap, ws) →
        snap.edges.length = (snap.nodes.map (fun n => loopIters n.edge_count)).sum ∧
        3 * snap.edges.length ≤ d.edges.length) ∧
    (∀ d : RawSnapshotData,
      3 * ((parseNodes d (parseInfoFromSnapshot d)).map (fun n => loopIters n.edge_count)).sum >
        d.edges.length →
      (parseSnapshot d).1.isOk = false) := by
  constructor
  · intro d snap ws h
    obtain ⟨wired, edges, hs, hw, rfl⟩ := parseSnapshot_ok_inv h
    obtain ⟨ei, inv, hlen⟩ := parseAndWireEdges_ok (parseNodes_empty_edges d _) hw
    constructor
    · show edges.length = (wired.map (fun n => loopIters n.edge_count)).sum
      rw [payload_map_eq inv.len_eq inv.payload (fun n => loopIters n.edge_count) (fun n => rfl)]
      exact hlen
    · exact wireInv_supply inv
  · intro d hgt
    cases hps : (parseSnapshot d).1 with
    | error e => rfl
    | ok snap =>
      exfalso
      have hfull : parseSnapshot d = (.ok snap, (parseSnapshot d).2) := by
        rw [← hps]
      obtain ⟨wired, edges, hs, hw, hsnap⟩ := parseSnapshot_ok_inv hfull
      obtain ⟨ei, inv, hlen⟩ := parseAndWireEdges_ok (parseNodes_empty_edges d _) hw
      have hsup := wireInv_supply inv
      simp only at hsup
      omega

/-- C1 witness: `overrunDoc` declares five edges but carries only one
record; the amended theorem applies and `parseSnapshot` fails. -/
theorem c1_amended_witness :
    3 * ((parseNodes overrunDoc (parseInfoFromSnapshot overrunDoc)).map
      (fun n => loopIters n.edge_count)).sum > overrunDoc.edges.length ∧
    (parseSnapshot overrunDoc).1.isOk = false :=
  ⟨by decide, c1_amended.2 overrunDoc (by decide)⟩

/-- C2 counterexample: `badTypeDoc`'s single node record has first field
99, not a valid index into the 14-element type table; the claim says
decoding must fail rather than produce a node, yet `parseNodes` returns
one node (with undefined type) and `parseSnapshot` succeeds. -/
theorem c2_counterexample :
    (parseNodes badTypeDoc (parseInfoFromSnapshot badTypeDoc)).length = 1 ∧
    ((parseSnapshot badTypeDoc).1.toOption.map (fun s => s.nodes.map (fun n => n.type))) =
      some [none] := by
  decide

/-- C2 (amended): node decoding returns exactly the declared node_count
records (clamped at zero for a negative count) in the original order of
the flat node sequence (record `i` is decoded from offset
`i * nodeFieldCount`), and a record whose first field does not index the
document's declared node-type table yields a node whose type is
undefined rather than a fatal decode error. -/
theorem c2_amended :
    (∀ (d : RawSnapshotData) (info : ParseInfo),
      (parseNodes d info).length = d.node_count.toNat) ∧
    (∀ (d : RawSnapshotData) (info : ParseInfo) (i : Nat) (h : i < (parseNodes d info).length),
      (parseNodes d info).get ⟨i, h⟩ = decodeNode d info i) ∧
    (∀ (d : RawSnapshotData) (info : ParseInfo) (i : Nat) (h : i < (parseNodes d info).length),
      (jsGetNum d.nodes ((i * info.nodeFieldCount : Nat) : Int)).bind
        (fun t => jsGetStr d.meta.node_types_head t) = none →
      ((parseNodes d info).get ⟨i, h⟩).type = none) := by
  refine ⟨parseNodes_length, parseNodes_get, ?_⟩
  intro d info i h htype
  rw [parseNodes_get]
  show (jsGetNum d.nodes ((i : Int) * (info.nodeFieldCount : Int))).bind
    (fun t => jsGetStr d.meta.node_types_head t) = none
  have hcast : ((i * info.nodeFieldCount : Nat) : Int) = (i : Int) * (info.nodeFieldCount : Int) := by
    push_cast
    ring
  rw [← hcast]
  exact htype

/-- C2 witness: the amended theorem applied to `badTypeDoc`'s record 0,
whose type field 99 resolves to no table entry. -/
theorem c2_amended_witness :
    ((parseNodes badTypeDoc (parseInfoFromSnapshot badTypeDoc)).get ⟨0, by decide⟩).type = none :=
  c2_amended.2.2 badTypeDoc _ 0 (by decide) (by decide)

/-- C3 counterexample: two successive decodes of `driftDoc` (whose
`node_fields[0]` is "TYPE") emit six diagnostics in total — three per
check, none suppressed — refuting the claim that at most one drift
diagnostic is emitted across the process lifetime. -/
theorem c3_counterexample :
    (sanityCheck (encode driftDoc)).1.isOk = true ∧
    (sanityCheck (encode driftDoc)).2.length = 3 ∧
    (processDiagnostics [encode driftDoc, encode driftDoc]).length = 6 := by
  decide

/-- C3 (amended): meta-descriptor drift checking never aborts decoding —
on any non-`null` descriptor `checkMetaData` returns a boolean instead
of throwing — but there is no process-lifetime warn-once latch: the
validator keeps no state between invocations, so every invocation
re-emits its own diagnostics (and one invocation may emit several). -/
theorem c3_amended :
    (∀ data : JVal, data ≠ .null →
      (checkMetaData "data.snapshot.meta" data metaDataProto).2.isOk = true) ∧
    (∀ (doc : JVal) (docs : List JVal),
      processDiagnostics (doc :: docs) = (sanityCheck doc).2 ++ processDiagnostics docs) := by
  constructor
  · intro data h
    exact checkMetaData_isOk data h "data.snapshot.meta"
  · intro doc docs
    simp [processDiagnostics]

/-- C3 witness: the amended theorem applied to the drifted descriptor of
`driftDoc` and to a two-decode process. -/
theorem c3_amended_witness :
    (checkMetaData "data.snapshot.meta" (encodeMeta driftDoc.meta) metaDataProto).2.isOk = true ∧
    processDiagnostics [encode driftDoc, encode driftDoc] =
      (sanityCheck (encode driftDoc)).2 ++ processDiagnostics [encode driftDoc] :=
  ⟨c3_amended.1 _ (fun h => JVal.noConfusion h),
   c3_amended.2 (encode driftDoc) [encode driftDoc]⟩

/-- C4 counterexample: for a non-element/hidden edge the raw second
field -1 is outside the string table's bounds, yet `name_or_index` does
not fail (the check only rejects indices at or above the length): it
returns the undefined result of the out-of-bounds read. -/
theorem c4_counterexample :
    name_or_index ["a"] (some "property") (some (-1)) = .ok .undefined := by
  decide

/-- C4 (amended): for "element"/"hidden" edges the raw second field is
the name, used literally as a number even when it is a valid string
index; for every other type the second field is a string-table index
whose resolution at or beyond the table's length is a fatal reference
error, while an in-bounds non-negative index resolves to the table
entry (negative indices are not checked, see C9); and on every
successful decode, edge `k`'s type, name and destination come from flat
positions `3k`, `3k+1`, `3k+2`, the destination being the decoded node
at position `raw / nodeFieldCount`. -/
theorem c4_amended :
    (∀ (strings : List String) (ty : Option String) (i : Option Int),
      (ty == some "element" || ty == some "hidden") = true →
      name_or_index strings ty i =
        .ok (match i with | some n => .num n | none => .undefined)) ∧
    (∀ (strings : List String) (ty : Option String) (n : Int),
      (ty == some "element" || ty == some "hidden") = false →
      (strings.length : Int) ≤ n →
      name_or_index strings ty (some n) = .error "Invalid string index!") ∧
    (∀ (strings : List String) (ty : Option String) (n : Int) (h0 : 0 ≤ n)
      (h1 : n.toNat < strings.length),
      (ty == some "element" || ty == some "hidden") = false →
      name_or_index strings ty (some n) = .ok (.str (strings.get ⟨n.toNat, h1⟩))) ∧
    (∀ (d : RawSnapshotData) (snap : SnapshotImpl) (ws : List String),
      parseSnapshot d = (.ok snap, ws) →
      ∀ (k : Nat) (hk : k < snap.edges.length),
        (snap.edges.get ⟨k, hk⟩).type = edgeTypeAt d d.meta.edge_types_head (3 * k) ∧
        name_or_index d.strings ((snap.edges.get ⟨k, hk⟩).type)
          (jsGetNum d.edges (((3 * k : Nat) : Int) + 1)) = .ok ((snap.edges.get ⟨k, hk⟩).name) ∧
        (∃ x, jsGetNum d.edges (((3 * k : Nat) : Int) + 2) = some x ∧
          (((parseInfoFromSnapshot d).nodeFieldCount : Int) ∣ x) ∧ 0 ≤ x ∧
          (((snap.edges.get ⟨k, hk⟩).«to» : Nat) : Int) =
            x / ((parseInfoFromSnapshot d).nodeFieldCount : Int) ∧
          (snap.edges.get ⟨k, hk⟩).«to» < snap.nodes.length)) := by
  refine ⟨?_, ?_, ?_, ?_⟩
  · intro strings ty i h
    unfold name_or_index
    rw [h]
    simp
  · intro strings ty n hb hle
    unfold name_or_index
    rw [hb]
    simp only [Bool.false_eq_true, if_false]
    rw [if_pos hle]
  · intro strings ty n h0 h1 hb
    unfold name_or_index
    rw [hb]
    simp only [Bool.false_eq_true, if_false]
    rw [if_neg (by omega)]
    unfold jsGetStr
    rw [dif_pos ⟨h0, h1⟩]
  · intro d snap ws h k hk
    obtain ⟨wired, edges, hs, hw, rfl⟩ := parseSnapshot_ok_inv h
    obtain ⟨ei, inv, hlen⟩ := parseAndWireEdges_ok (parseNodes_empty_edges d _) hw
    obtain ⟨h1, h2, h3, h4⟩ := inv.raw k hk
    refine ⟨h2, h3, ?_⟩
    obtain ⟨x, hx, hdvd, hx0, hti, hlt⟩ := toNodeIndex_some_inv h4
    have hlen2 : wired.length = (mkSnapshot wired edges (hasDetachedness d)).nodes.length := rfl
    exact ⟨x, hx, hdvd, hx0, hti, by rw [← hlen2] at *; exact hlt⟩

/-- C4 witness: the amended theorem at concrete inputs — an "element"
edge with raw field 5 keeps numeric name 5 although 5 is a valid index
into the six-entry table; a "property" edge with index 3 against a
one-entry table fails; index 0 resolves to "a"; and edge 0 of the
end-to-end document is decoded from flat positions 0..2. -/
theorem c4_amended_witness :
    name_or_index ["a", "b", "c", "d", "e", "f"] (some "element") (some 5) = .ok (.num 5) ∧
    name_or_index ["a"] (some "property") (some 3) = .error "Invalid string index!" ∧
    name_or_index ["a"] (some "property") (some 0) = .ok (.str "a") ∧
    ((forceSnap endToEndDoc).edges.get ⟨0, by decide⟩).type =
      edgeTypeAt endToEndDoc endToEndDoc.meta.edge_types_head 0 :=
  ⟨c4_amended.1 _ _ _ (by decide),
   c4_amended.2.1 _ _ _ (by decide) (by decide),
   c4_amended.2.2.1 _ _ 0 (by decide) (by decide) (by decide),
   (c4_amended.2.2.2 endToEndDoc (forceSnap endToEndDoc) (parseSnapshot endToEndDoc).2
     (by decide) 0 (by decide)).1⟩

/-- C5 counterexample: `negEcDoc`'s node declares edge_count -1; the
snapshot decodes successfully with zero edges, so the sum of declared
edge counts (-1) differs from the total decoded edge count (0),
refuting the claimed equality for every successfully decoded
snapshot. -/
theorem c5_counterexample :
    (parseSnapshot negEcDoc).1.isOk = true ∧
    ((parseSnapshot negEcDoc).1.toOption.map
      (fun s => (s.nodes.map (fun n => n.edge_count.getD 0)).sum)) = some (-1) ∧
    ((parseSnapshot negEcDoc).1.toOption.map (fun s => s.edges.length)) = some 0 := by
  decide

/-- C5 (amended): for every successfully decoded snapshot, node `j`'s
out_edges are exactly the decoded edges with origin `j` and its
in_edges exactly those with destination `j`, in decode order, so each
edge appears exactly once in its origin's out_edges and once in its
destination's in_edges; the total decoded edge count equals the sum of
declared edge counts clamped at zero, which equals the sums of the
out_edges and in_edges sizes; the unclamped declared sum agrees
whenever every declared count is non-negative. -/
theorem c5_amended :
    ∀ (d : RawSnapshotData) (snap : SnapshotImpl) (ws : List String),
      parseSnapshot d = (.ok snap, ws) →
      (∀ j (hj : j < snap.nodes.length),
        (snap.nodes.get ⟨j, hj⟩).out_edges = snap.edges.filter (fun e => e.«from» == j) ∧
        (snap.nodes.get ⟨j, hj⟩).in_edges = snap.edges.filter (fun e => e.«to» == j)) ∧
      (∀ e ∈ snap.edges,
        ∃ (hf : e.«from» < snap.nodes.length) (ht : e.«to» < snap.nodes.length),
          (snap.nodes.get ⟨e.«from», hf⟩).out_edges.count e = 1 ∧
          (snap.nodes.get ⟨e.«to», ht⟩).in_edges.count e = 1) ∧
      snap.edges.length = (snap.nodes.map (fun n => loopIters n.edge_count)).sum ∧
      (snap.nodes.map (fun n => n.out_edges.length)).sum = snap.edges.length ∧
      (snap.nodes.map (fun n => n.in_edges.length)).sum = snap.edges.length ∧
      ((∀ n ∈ snap.nodes, ∃ c, n.edge_count = some c ∧ 0 ≤ c) →
        (snap.nodes.map (fun n => n.edge_count.getD 0)).sum = (snap.edges.length : Int)) := by
  intro d snap ws h
  obtain ⟨wired, edges, hs, hw, rfl⟩ := parseSnapshot_ok_inv h
  obtain ⟨ei, inv, hlen⟩ := parseAndWireEdges_ok (parseNodes_empty_edges d _) hw
  have hnodes : (mkSnapshot wired edges (hasDetachedness d)).nodes = wired := rfl
  have hedges : (mkSnapshot wired edges (hasDetachedness d)).edges = edges := rfl
  rw [hnodes, hedges]
  have hout : ∀ j (hj : j < wired.length),
      (wired.get ⟨j, hj⟩).out_edges = edges.filter (fun e => e.«from» == j) := by
    intro j hj
    have ho := inv.out_char j
    rw [List.get?_eq_get hj] at ho
    simp only at ho
    simpa [hj] using ho
  have hin : ∀ j (hj : j < wired.length),
      (wired.get ⟨j, hj⟩).in_edges = edges.filter (fun e => e.«to» == j) := by
    intro j hj
    have ho := inv.in_char j
    rw [List.get?_eq_get hj] at ho
    simpa [hj] using ho
  have hnodup : edges.Nodup := by
    have hmap : edges.map EdgeImpl.eidx = List.range edges.length := inv.eidx_range
    have : (edges.map EdgeImpl.eidx).Nodup := by
      rw [hmap]
      exact List.nodup_range _
    exact this.of_map
  refine ⟨fun j hj => ⟨hout j hj, hin j hj⟩, ?_, ?_, ?_, ?_, ?_⟩
  · intro e he
    obtain ⟨hf, ht⟩ := inv.bounds e he
    refine ⟨hf, ht, ?_, ?_⟩
    · rw [hout e.«from» hf, List.count_filter (by simp)]
      exact List.count_eq_one_of_mem hnodup he
    · rw [hin e.«to» ht, List.count_filter (by simp)]
      exact List.count_eq_one_of_mem hnodup he
  · rw [payload_map_eq inv.len_eq inv.payload (fun n => loopIters n.edge_count) (fun n => rfl)]
    exact hlen
  · exact sum_proj_lengths (fun n => n.out_edges) (fun e => e.«from») inv.out_char
      (fun e he => (inv.bounds e he).1)
  · exact sum_proj_lengths (fun n => n.in_edges) (fun e => e.«to») inv.in_char
      (fun e he => (inv.bounds e he).2)
  · intro hnn
    rw [declared_sum_eq wired hnn, payload_map_eq inv.len_eq inv.payload
      (fun n => loopIters n.edge_count) (fun n => rfl), hlen]

/-- C5 witness: the amended theorem applied to the end-to-end document:
out-edge sizes sum to the decoded edge total. -/
theorem c5_amended_witness :
    ((forceSnap endToEndDoc).nodes.map (fun n => n.out_edges.length)).sum =
      (forceSnap endToEndDoc).edges.length :=
  (c5_amended endToEndDoc (forceSnap endToEndDoc) (parseSnapshot endToEndDoc).2
    (by decide)).2.2.2.1

/-- The detached field of a decoded node: present exactly when the
resolved layout has more than 6 fields, and then equal to the loose
comparison of the 7th stored slot with 1. -/
theorem decodeNode_detached (d : RawSnapshotData) (info : ParseInfo) (i : Nat) :
    (decodeNode d info i).detached =
      if 6 < (info.nodeFieldCount : Int) then
        some (jsGetNum d.nodes ((i : Int) * (info.nodeFieldCount : Int) + 6) == some 1)
      else none := by
  unfold decodeNode access
  dsimp only
  rw [show ((i : Int) * (info.nodeFieldCount : Int) + 6 -
      (i : Int) * (info.nodeFieldCount : Int)) = 6 from by ring]

/-- C6: the detachedness capability flag is set iff the document
declares at least 7 node fields; with a 6-field layout every decoded
node's detached value is absent, and with a 7-field layout the 7th
stored value decodes to detached = (value equals 1), so stored 1 gives
true and stored 0 gives false. -/
theorem c6_detachedness :
    (∀ d : RawSnapshotData, hasDetachedness d = true ↔ 7 ≤ d.meta.node_fields.length) ∧
    (∀ d : RawSnapshotData, (parseInfoFromSnapshot d).nodeFieldCount = 6 →
      ∀ n ∈ parseNodes d (parseInfoFromSnapshot d), n.detached = none) ∧
    (∀ d : RawSnapshotData, (parseInfoFromSnapshot d).nodeFieldCount = 7 →
      ∀ (i : Nat) (h : i < (parseNodes d (parseInfoFromSnapshot d)).length) (v : Int),
        jsGetNum d.nodes ((i * 7 + 6 : Nat) : Int) = some v →
        ((parseNodes d (parseInfoFromSnapshot d)).get ⟨i, h⟩).detached = some (v == 1)) := by
  refine ⟨?_, ?_, ?_⟩
  · intro d
    simp [hasDetachedness, ge_iff_le]
  · intro d h6 n hn
    simp only [parseNodes, List.mem_map] at hn
    obtain ⟨i, -, rfl⟩ := hn
    rw [decodeNode_detached, h6]
    norm_num
  · intro d h7 i h v hv
    rw [parseNodes_get, decodeNode_detached, h7]
    rw [if_pos (by norm_num)]
    rw [show ((i : Int) * ((7 : Nat) : Int) + 6) = ((i * 7 + 6 : Nat) : Int) from by
      push_cast; ring]
    rw [hv]
    rfl

/-- C6 witness: the theorem applied to the 7-field document `det7Doc`
(stored values 1 and 0) and the 6-field end-to-end document. -/
theorem c6_detachedness_witness :
    hasDetachedness det7Doc = true ∧
    hasDetachedness endToEndDoc = false ∧
    ((parseNodes endToEndDoc (parseInfoFromSnapshot endToEndDoc)).get ⟨0, by decide⟩).detached =
      none ∧
    ((parseNodes det7Doc (parseInfoFromSnapshot det7Doc)).get ⟨0, by decide⟩).detached =
      some ((1 : Int) == 1) ∧
    ((parseNodes det7Doc (parseInfoFromSnapshot det7Doc)).get ⟨1, by decide⟩).detached =
      some ((0 : Int) == 1) :=
  ⟨(c6_detachedness.1 det7Doc).mpr (by decide),
   by decide,
   c6_detachedness.2.1 endToEndDoc (by decide) _
     (List.get_mem (parseNodes endToEndDoc (parseInfoFromSnapshot endToEndDoc)) 0 (by decide)),
   c6_detachedness.2.2 det7Doc (by decide) 0 (by decide) 1 (by decide),
   c6_detachedness.2.2 det7Doc (by decide) 1 (by decide) 0 (by decide)⟩

/-- C7 counterexample: `driftBadLenDoc` drifts in `node_fields[0]` and
fails the bulk-array length assertion; the abort happens, but only
after three drift diagnostics were emitted, refuting "without first
emitting a drift warning". -/
theorem c7_counterexample :
    sanityCheck (encode driftBadLenDoc) =
      (.error "But Expected 6 node elements, but got 0",
        ["Expected 'data.snapshot.meta.node_fields[0]' to be 'type' but was 'TYPE'!",
         formatChangedMsg, continuingMsg]) := by
  decide

/-- C7 (amended): structural validation aborts the whole decode before
any node or edge is constructed whenever a hard assertion fails; every
assertion up to the edge-field-count check aborts before the drift
check, with no diagnostics emitted (in particular a non-object root and
edge_fields of length 2 are fatal with no warning); only the bulk-array
length assertions run after the drift check, so an abort accompanied by
diagnostics is always one of them. -/
theorem c7_amended :
    (∀ (data : JVal) (e : String) (ws : List String),
      sanityCheck data = (.error e, ws) → ws ≠ [] →
      ∃ pre, sanityPre data = .ok pre ∧ sanityPost data pre = .error e) ∧
    (∀ data : JVal, (typeofStr data == "object") = false →
      sanityCheck data = (.error s!"data is not an object, but is {typeofStr data}", [])) ∧
    (sanityCheck (encode edgeFields2Doc) =
      (.error "But Expected 3 edge fields, but got 2", [])) ∧
    (∀ (d : RawSnapshotData) (e : String) (ws : List String),
      sanityCheck (encode d) = (.error e, ws) → parseSnapshot d = (.error e, ws)) := by
  refine ⟨?_, ?_, by decide, ?_⟩
  · intro data e ws h hws
    unfold sanityCheck at h
    split at h
    · simp only [Prod.mk.injEq] at h
      exact absurd h.2.symm hws
    rename_i pre hpre
    split at h
    · rename_i ws2 e2 hcmd
      exfalso
      obtain ⟨kvs, hkvs⟩ := sanityMeta_obj (sanityPre_meta hpre)
      have hok := checkMetaData_isOk pre.meta (by rw [hkvs]; intro hx; cases hx) "data.snapshot.meta"
      rw [hcmd] at hok
      simp [Except.isOk, Except.toBool] at hok
    rename_i ws2 ok hcmd
    rcases hpost : sanityPost data pre with e2 | u
    · rw [hpost] at h
      simp only [Prod.mk.injEq, Except.error.injEq] at h
      obtain ⟨rfl, rfl⟩ := h
      exact ⟨pre, hpre, hpost⟩
    · rw [hpost] at h
      simp at h
  · intro data hobj
    unfold sanityCheck sanityPre sanityRoot
    simp [assertObject, assertX, hobj, bind, Except.bind]
    congr 2
  · intro d e ws h
    exact parseSnapshot_sanity_error h

/-- C7 witness: the amended theorem applied to `driftBadLenDoc` (an
abort with diagnostics is a post-drift length assertion), to the
non-object root 5, and to `driftBadLenDoc`'s whole-parse abort. -/
theorem c7_amended_witness :
    (∃ pre, sanityPre (encode driftBadLenDoc) = .ok pre ∧
      sanityPost (encode driftBadLenDoc) pre =
        .error "But Expected 6 node elements, but got 0") ∧
    sanityCheck (.num 5) = (.error "data is not an object, but is number", []) ∧
    parseSnapshot driftBadLenDoc =
      (.error "But Expected 6 node elements, but got 0",
        ["Expected 'data.snapshot.meta.node_fields[0]' to be 'type' but was 'TYPE'!",
         formatChangedMsg, continuingMsg]) :=
  ⟨c7_amended.1 (encode driftBadLenDoc) "But Expected 6 node elements, but got 0"
      ["Expected 'data.snapshot.meta.node_fields[0]' to be 'type' but was 'TYPE'!",
       formatChangedMsg, continuingMsg] (by decide) (by decide),
   c7_amended.2.1 (.num 5) (by decide),
   c7_amended.2.2.2 driftBadLenDoc _ _ (by decide)⟩

/-- C8: the `global` and `modules` views are cached — a repeated access
returns the identical cached value and leaves the state unchanged; when
no node carries the global sentinel name, accessing `global` raises the
not-found error at access time, while construction itself succeeds and
`modules` never fails and may be empty (shown on `noGlobalDoc`). -/
theorem c8_lazy_views :
    (∀ (s : SnapshotImpl) (v : NodeImpl) (s' : SnapshotImpl),
      globalGet s = .ok (v, s') → globalGet s' = .ok (v, s')) ∧
    (∀ (s : SnapshotImpl) (m : List NodeImpl) (s' : SnapshotImpl),
      modulesGet s = (m, s') → modulesGet s' = (m, s')) ∧
    (∀ s : SnapshotImpl, s.globalCache = none →
      (∀ n ∈ s.nodes, n.name ≠ some "global / ") →
      globalGet s = .error "Could not find global object!") ∧
    ((parseSnapshot noGlobalDoc).1.isOk = true ∧
      ((parseSnapshot noGlobalDoc).1.toOption.map (fun s => (globalGet s).isOk)) = some false ∧
      ((parseSnapshot noGlobalDoc).1.toOption.map (fun s => (modulesGet s).1)) = some []) := by
  refine ⟨?_, ?_, ?_, by decide⟩
  · intro s v s' h
    exact globalGet_cached h
  · intro s m s' h
    exact modulesGet_cached h
  · intro s hc h
    exact globalGet_not_found hc h

/-- C8 witness: the theorem applied to the decoded end-to-end snapshot:
re-accessing `global` after a successful access returns the same node
and state, re-accessing `modules` is stable, and the not-found branch
fires on a cache-less container whose nodes lack the sentinel. -/
theorem c8_lazy_views_witness :
    globalGet (globalOnce (forceSnap endToEndDoc)).2 =
      .ok ((globalOnce (forceSnap endToEndDoc)).1, (globalOnce (forceSnap endToEndDoc)).2) ∧
    modulesGet (modulesGet (forceSnap endToEndDoc)).2 =
      ((modulesGet (forceSnap endToEndDoc)).1, (modulesGet (forceSnap endToEndDoc)).2) ∧
    globalGet (forceSnap noGlobalDoc) = .error "Could not find global object!" :=
  ⟨c8_lazy_views.1 (forceSnap endToEndDoc) _ _ (by decide),
   c8_lazy_views.2.1 (forceSnap endToEndDoc) _ _ rfl,
   c8_lazy_views.2.2.1 (forceSnap noGlobalDoc) (by decide) (by decide)⟩

/-- C9: for a non-"element"/"hidden" edge whose raw second field is a
negative integer, the string-table bounds check does not fire (it only
rejects indices at or above the table's length): `name_or_index`
returns the undefined result of indexing below zero, and a whole decode
containing such an edge succeeds with an undefined edge name. -/
theorem c9_negative_index :
    (∀ (strings : List String) (ty : Option String) (i : Int),
      (ty == some "element" || ty == some "hidden") = false → i < 0 →
      name_or_index strings ty (some i) = .ok .undefined) ∧
    ((parseSnapshot negIdxDoc).1.isOk = true ∧
      ((parseSnapshot negIdxDoc).1.toOption.map (fun s => s.edges.map (fun e => e.name))) =
        some [.undefined]) := by
  constructor
  · intro strings ty i hb hneg
    unfold name_or_index
    rw [hb]
    simp only [Bool.false_eq_true, if_false]
    rw [if_neg (by omega)]
    unfold jsGetStr
    rw [dif_neg (by omega)]
  · decide

/-- C9 witness: the theorem applied to a "context" edge with raw index
-2 against a two-entry table. -/
theorem c9_negative_index_witness :
    name_or_index ["a", "b"] (some "context") (some (-2)) = .ok .undefined :=
  c9_negative_index.1 ["a", "b"] (some "context") (-2) (by decide) (by decide)

/-- C10: if several decoded nodes share an id, snapshot construction
still succeeds and `findNodeById` returns the node occurring last in
decode order: on every successful parse the lookup equals the last
element of the node list filtered by that id, because each later
`Map.set` overwrites the earlier entry; `dupIdDoc` (two nodes with id 1,
names "a" and "b") decodes successfully and id 1 resolves to "b". -/
theorem c10_duplicate_ids :
    (∀ (d : RawSnapshotData) (snap : SnapshotImpl) (ws : List String),
      parseSnapshot d = (.ok snap, ws) →
      ∀ id : Int,
        findNodeById snap id = (snap.nodes.filter (fun n => n.id == some id)).getLast?) ∧
    ((parseSnapshot dupIdDoc).1.isOk = true ∧
      ((parseSnapshot dupIdDoc).1.toOption.map
        (fun s => (findNodeById s 1).map (fun n => n.name))) = some (some (some "b"))) := by
  constructor
  · intro d snap ws h id
    obtain ⟨wired, edges, hs, hw, rfl⟩ := parseSnapshot_ok_inv h
    exact findNodeById_mk wired edges (hasDetachedness d) id
  · decide

/-- C10 witness: the theorem applied to `dupIdDoc`: the id-1 lookup in
the decoded snapshot equals the last filtered node. -/
theorem c10_duplicate_ids_witness :
    findNodeById (forceSnap dupIdDoc) 1 =
      ((forceSnap dupIdDoc).nodes.filter (fun n => n.id == some 1)).getLast? :=
  c10_duplicate_ids.1 dupIdDoc (forceSnap dupIdDoc) (parseSnapshot dupIdDoc).2 (by decide) 1
